import Mathlib

/-!
Verification of the DNS record presentation parser/emitter, the DNSKEY key-tag
computation, and the TSIG signing pipeline of the hickory-dns core.

Strings are modelled as `List Char` (Rust `&str` code points), byte buffers as
`List Nat` with explicit bounds.  Fallible Rust functions returning
`Result<_, Error>` are modelled with `RRes`; a Rust panic (e.g. `todo!`) is the
distinguished outcome `RRes.panicked`.
-/

set_option maxHeartbeats 1000000

/-- Result type for the embedded Rust functions: `ok` for `Ok`, `err` for
`Err`, and `panicked` for a Rust panic (such as `todo!`). -/
inductive RRes (α : Type) where
  | ok (val : α)
  | err (msg : List Char)
  | panicked (msg : List Char)
deriving DecidableEq

namespace RRes

def bind {α β : Type} : RRes α → (α → RRes β) → RRes β
  | .ok a, f => f a
  | .err m, _ => .err m
  | .panicked m, _ => .panicked m

@[simp] theorem bind_ok {α β : Type} (a : α) (f : α → RRes β) : bind (.ok a) f = f a := rfl

@[simp] theorem bind_err {α β : Type} (m : List Char) (f : α → RRes β) :
    bind (.err m) f = .err m := rfl

@[simp] theorem bind_panicked {α β : Type} (m : List Char) (f : α → RRes β) :
    bind (.panicked m) f = .panicked m := rfl

/-- Convert an `Option` (e.g. an integer parse) into a result, as the `?`
operator does with a message-bearing error. -/
def ofOpt {α : Type} : Option α → List Char → RRes α
  | some a, _ => .ok a
  | none, msg => .err msg

@[simp] theorem ofOpt_some {α : Type} (a : α) (m : List Char) : ofOpt (some a) m = .ok a := rfl

@[simp] theorem ofOpt_none {α : Type} (m : List Char) : ofOpt (none : Option α) m = .err m := rfl

end RRes

/-- Rust `char::is_whitespace` (the Unicode `White_Space` property). -/
def rustIsWhitespace (c : Char) : Bool :=
  c.toNat == 0x09 || c.toNat == 0x0A || c.toNat == 0x0B || c.toNat == 0x0C ||
  c.toNat == 0x0D || c.toNat == 0x20 || c.toNat == 0x85 || c.toNat == 0xA0 ||
  c.toNat == 0x1680 || (0x2000 ≤ c.toNat && c.toNat ≤ 0x200A) ||
  c.toNat == 0x2028 || c.toNat == 0x2029 || c.toNat == 0x202F ||
  c.toNat == 0x205F || c.toNat == 0x3000

/-- Rust `char::is_ascii_whitespace`: space, tab, newline, form feed, carriage return. -/
def isAsciiWs (c : Char) : Bool :=
  c.toNat == 0x20 || c.toNat == 0x09 || c.toNat == 0x0A || c.toNat == 0x0C ||
  c.toNat == 0x0D

theorem isAsciiWs_rust {c : Char} (h : isAsciiWs c = true) : rustIsWhitespace c = true := by
  simp only [isAsciiWs, rustIsWhitespace, Bool.or_eq_true, beq_iff_eq,
    Bool.and_eq_true, decide_eq_true_eq] at h ⊢
  omega

/-- Worker for Rust `str::split_whitespace` / `split_ascii_whitespace`:
`acc` is the (reversed) token being accumulated. -/
def splitWsAux (p : Char → Bool) : List Char → List Char → List (List Char)
  | [], acc => if acc = [] then [] else [acc.reverse]
  | c :: cs, acc =>
    if p c then
      if acc = [] then splitWsAux p cs []
      else acc.reverse :: splitWsAux p cs []
    else splitWsAux p cs (c :: acc)

/-- Rust `str::split_whitespace` (with `p := rustIsWhitespace`) and
`str::split_ascii_whitespace` (with `p := isAsciiWs`), as the list of tokens. -/
def splitWs (p : Char → Bool) (s : List Char) : List (List Char) :=
  splitWsAux p s []

theorem splitWsAux_nonsep (p : Char → Bool) (t : List Char) :
    ∀ s acc, (∀ c ∈ t, p c = false) →
      splitWsAux p (t ++ s) acc = splitWsAux p s (t.reverse ++ acc) := by
  induction t with
  | nil => intro s acc _; simp
  | cons c t ih =>
    intro s acc ht
    have hc : p c = false := ht c (by simp)
    simp only [List.cons_append, splitWsAux, hc, Bool.false_eq_true, if_false,
      List.reverse_cons, List.append_assoc, List.singleton_append]
    exact ih s (c :: acc) (fun d hd => ht d (by simp [hd]))

theorem splitWsAux_sep (p : Char → Bool) {c : Char} (hc : p c = true)
    (s t acc : List Char) :
    splitWsAux p (s ++ c :: t) acc = splitWsAux p s acc ++ splitWs p t := by
  induction s generalizing acc with
  | nil =>
    by_cases hacc : acc = [] <;>
      simp [splitWsAux, hc, hacc, splitWs]
  | cons d s ih =>
    by_cases hd : p d
    · by_cases hacc : acc = [] <;>
        simp [splitWsAux, hd, hacc, ih]
    · simp [splitWsAux, hd, ih]

theorem splitWs_sep (p : Char → Bool) {c : Char} (hc : p c = true) (s t : List Char) :
    splitWs p (s ++ c :: t) = splitWs p s ++ splitWs p t :=
  splitWsAux_sep p hc s t []

theorem splitWs_token (p : Char → Bool) (t : List Char) (hne : t ≠ [])
    (ht : ∀ c ∈ t, p c = false) : splitWs p t = [t] := by
  have h := splitWsAux_nonsep p t [] [] ht
  simp only [List.append_nil] at h
  unfold splitWs
  rw [h]
  have : t.reverse ≠ [] := by simpa using hne
  simp [splitWsAux, this]

theorem splitWs_nil (p : Char → Bool) : splitWs p [] = [] := rfl

theorem splitWsAux_join (p : Char → Bool) (s acc : List Char) :
    (splitWsAux p s acc).flatten = acc.reverse ++ s.filter (fun c => !p c) := by
  induction s generalizing acc with
  | nil => by_cases hacc : acc = [] <;> simp [splitWsAux, hacc]
  | cons c cs ih =>
    by_cases hc : p c
    · by_cases hacc : acc = [] <;>
        simp [splitWsAux, hc, hacc, ih, List.filter_cons]
    · simp [splitWsAux, hc, ih, List.filter_cons]

theorem splitWs_join (p : Char → Bool) (s : List Char) :
    (splitWs p s).flatten = s.filter (fun c => !p c) := by
  simpa using splitWsAux_join p s []

/-- All-characters-kept corollary: a separator-free string splits into itself. -/
theorem splitWs_flatten_of_nonsep (p : Char → Bool) (s : List Char)
    (hs : ∀ c ∈ s, p c = false) : (splitWs p s).flatten = s := by
  rw [splitWs_join]
  exact List.filter_eq_self.mpr (fun c hc => by simp [hs c hc])

/-- Decimal digit characters `'0'`-`'9'`. -/
def digitChar : Nat → Char
  | 0 => '0' | 1 => '1' | 2 => '2' | 3 => '3' | 4 => '4'
  | 5 => '5' | 6 => '6' | 7 => '7' | 8 => '8' | _ => '9'

def isDigitChar (c : Char) : Bool :=
  0x30 ≤ c.toNat && c.toNat ≤ 0x39

theorem isDigitChar_digitChar (d : Nat) : isDigitChar (digitChar d) = true := by
  rcases d with _|_|_|_|_|_|_|_|_|_ <;> rfl

theorem isDigitChar_not_ws {c : Char} (h : isDigitChar c = true) :
    rustIsWhitespace c = false := by
  simp only [isDigitChar, Bool.and_eq_true, decide_eq_true_eq] at h
  simp only [rustIsWhitespace, Bool.or_eq_false_iff, beq_eq_false_iff_ne, ne_eq,
    Bool.and_eq_false_iff, decide_eq_false_iff_not, not_le]
  omega

theorem isDigitChar_ascii {c : Char} (h : isDigitChar c = true) : c.toNat < 0x80 := by
  simp only [isDigitChar, Bool.and_eq_true, decide_eq_true_eq] at h
  omega

/-- Fuel-driven worker for the decimal representation (structural recursion so
that the kernel can evaluate it). -/
def natToCharsCore : Nat → Nat → List Char
  | 0, _ => []
  | fuel + 1, n =>
    if n < 10 then [digitChar n]
    else natToCharsCore fuel (n / 10) ++ [digitChar (n % 10)]

/-- Decimal representation of a natural number (Rust `Display` for the
unsigned integer types). -/
def natToChars (n : Nat) : List Char := natToCharsCore (n + 1) n

theorem natToCharsCore_congr : ∀ f1 f2 n, n < f1 → n < f2 →
    natToCharsCore f1 n = natToCharsCore f2 n := by
  intro f1
  induction f1 with
  | zero => intro f2 n h1 _; omega
  | succ f1 ih =>
    intro f2 n h1 h2
    cases f2 with
    | zero => omega
    | succ f2 =>
      rw [natToCharsCore, natToCharsCore]
      by_cases hn : n < 10
      · simp [hn]
      · have hd : n / 10 < n := Nat.div_lt_self (by omega) (by omega)
        rw [if_neg hn, if_neg hn, ih f2 (n / 10) (by omega) (by omega)]

/-- The defining recursion of `natToChars`. -/
theorem natToChars_eq (n : Nat) :
    natToChars n =
      if n < 10 then [digitChar n] else natToChars (n / 10) ++ [digitChar (n % 10)] := by
  unfold natToChars
  rw [natToCharsCore]
  by_cases hn : n < 10
  · simp [hn]
  · have hd : n / 10 < n := Nat.div_lt_self (by omega) (by omega)
    rw [if_neg hn, if_neg hn,
      natToCharsCore_congr n (n / 10 + 1) (n / 10) (by omega) (by omega)]

theorem natToChars_ne_nil (n : Nat) : natToChars n ≠ [] := by
  rw [natToChars_eq]
  split <;> simp

theorem natToChars_digits (n : Nat) : ∀ c ∈ natToChars n, isDigitChar c = true := by
  induction n using Nat.strong_induction_on with
  | _ n ih =>
    intro c hc
    rw [natToChars_eq] at hc
    split at hc
    · simp only [List.mem_singleton] at hc
      exact hc ▸ isDigitChar_digitChar n
    · rename_i h
      rcases List.mem_append.mp hc with h1 | h1
      · exact ih (n / 10) (Nat.div_lt_self (by omega) (by omega)) c h1
      · simp only [List.mem_singleton] at h1
        exact h1 ▸ isDigitChar_digitChar (n % 10)

theorem natToChars_not_ws (n : Nat) : ∀ c ∈ natToChars n, rustIsWhitespace c = false :=
  fun c hc => isDigitChar_not_ws (natToChars_digits n c hc)

/-- Value of a decimal digit character, as used by Rust integer `FromStr`. -/
def digitVal (c : Char) : Option Nat :=
  if isDigitChar c then some (c.toNat - 0x30) else none

theorem digitVal_digitChar {d : Nat} (h : d < 10) : digitVal (digitChar d) = some d := by
  interval_cases d <;> decide

/-- Digit-accumulation loop of Rust `from_str_radix` for an unsigned type with
maximum value `mx` (overflow is an error). -/
def parseDigits (mx : Nat) : List Char → Nat → Option Nat
  | [], acc => some acc
  | c :: cs, acc =>
    match digitVal c with
    | none => none
    | some d => if acc * 10 + d ≤ mx then parseDigits mx cs (acc * 10 + d) else none

theorem parseDigits_append (mx : Nat) (s t : List Char) (acc : Nat) :
    parseDigits mx (s ++ t) acc =
      (parseDigits mx s acc).bind (fun v => parseDigits mx t v) := by
  induction s generalizing acc with
  | nil => simp [parseDigits]
  | cons c cs ih =>
    simp only [List.cons_append, parseDigits]
    cases digitVal c with
    | none => simp
    | some d =>
      by_cases hle : acc * 10 + d ≤ mx <;> simp [hle, ih]

theorem parseDigits_natToChars (mx : Nat) :
    ∀ n, n ≤ mx → parseDigits mx (natToChars n) 0 = some n := by
  intro n
  induction n using Nat.strong_induction_on with
  | _ n ih =>
    intro h
    rw [natToChars_eq]
    split
    · rename_i hlt
      simp [parseDigits, digitVal_digitChar hlt, h]
    · rename_i hge
      rw [parseDigits_append,
        ih (n / 10) (Nat.div_lt_self (by omega) (by omega))
          (le_trans (Nat.div_le_self n 10) h)]
      have hmod : n % 10 < 10 := Nat.mod_lt _ (by omega)
      have hval : n / 10 * 10 + n % 10 = n := by omega
      simp [parseDigits, digitVal_digitChar hmod, hval, h]

/-- Rust `u8`/`u16`/`u32`/`u64`/`usize` `from_str`: an optional leading `+`
followed by at least one decimal digit, with overflow rejected. -/
def parseUint (mx : Nat) (s : List Char) : Option Nat :=
  match s with
  | [] => none
  | c :: rest =>
    if c = '+' then (if rest = [] then none else parseDigits mx rest 0)
    else parseDigits mx s 0

def U8MAX : Nat := 255
def U16MAX : Nat := 65535
def U32MAX : Nat := 4294967295
def U64MAX : Nat := 18446744073709551615

theorem natToChars_head_digit (n : Nat) :
    ∃ d cs, natToChars n = digitChar d :: cs ∧ d < 10 := by
  induction n using Nat.strong_induction_on with
  | _ n ih =>
    rw [natToChars_eq]
    split
    · rename_i h
      exact ⟨n, [], rfl, h⟩
    · rename_i h
      obtain ⟨d, cs, hshape, hd⟩ := ih (n / 10) (Nat.div_lt_self (by omega) (by omega))
      exact ⟨d, cs ++ [digitChar (n % 10)], by rw [hshape]; simp, hd⟩

theorem parseUint_natToChars {mx n : Nat} (h : n ≤ mx) :
    parseUint mx (natToChars n) = some n := by
  obtain ⟨d, cs, hshape, hd⟩ := natToChars_head_digit n
  have hne : digitChar d ≠ '+' := by interval_cases d <;> decide
  have hpd := parseDigits_natToChars mx n h
  rw [hshape] at hpd ⊢
  simpa [parseUint, hne] using hpd

/-- Rust `str::trim`: remove leading and trailing Unicode whitespace. -/
def trimChars (s : List Char) : List Char :=
  ((s.dropWhile rustIsWhitespace).reverse.dropWhile rustIsWhitespace).reverse

/-- Rust `str::trim_end`. -/
def trimEndChars (s : List Char) : List Char :=
  (s.reverse.dropWhile rustIsWhitespace).reverse

theorem dropWhile_eq_self_of_head {p : Char → Bool} {s : List Char}
    (h : ∀ c, s.head? = some c → p c = false) : s.dropWhile p = s := by
  cases s with
  | nil => rfl
  | cons c cs => simp [List.dropWhile_cons, h c rfl]

theorem trimChars_eq_self {s : List Char}
    (h1 : ∀ c, s.head? = some c → rustIsWhitespace c = false)
    (h2 : ∀ c, s.getLast? = some c → rustIsWhitespace c = false) :
    trimChars s = s := by
  unfold trimChars
  rw [dropWhile_eq_self_of_head h1]
  rw [dropWhile_eq_self_of_head (fun c hc => h2 c (by rwa [List.head?_reverse] at hc))]
  simp

theorem trimChars_nil : trimChars [] = [] := rfl

/-- Rust `str::split_once` with an ASCII-whitespace predicate (as used by the
TXT parser's leading-column extraction). -/
def splitOnceAsciiWs : List Char → Option (List Char × List Char)
  | [] => none
  | c :: cs =>
    if isAsciiWs c then some ([], cs)
    else
      match splitOnceAsciiWs cs with
      | some (l, r) => some (c :: l, r)
      | none => none

theorem splitOnceAsciiWs_token {t rest : List Char} {c : Char}
    (ht : ∀ d ∈ t, isAsciiWs d = false) (hc : isAsciiWs c = true) :
    splitOnceAsciiWs (t ++ c :: rest) = some (t, rest) := by
  induction t with
  | nil => simp [splitOnceAsciiWs, hc]
  | cons d t ih =>
    have hd : isAsciiWs d = false := ht d (by simp)
    simp only [List.cons_append, splitOnceAsciiWs, hd, Bool.false_eq_true, if_false,
      List.append_eq]
    rw [ih (fun e he => ht e (by simp [he]))]

/-- Rust `str::rsplit_once(" ;")`: split at the last occurrence of the
two-character pattern space-semicolon (DNSKEY trailing-comment stripping). -/
def rsplitSpSemi : List Char → Option (List Char × List Char)
  | [] => none
  | [_] => none
  | c1 :: c2 :: rest =>
    match rsplitSpSemi (c2 :: rest) with
    | some (l, r) => some (c1 :: l, r)
    | none => if c1 = ' ' && c2 = ';' then some ([], rest) else none

theorem rsplitSpSemi_none {s : List Char} (h : ∀ c ∈ s, c ≠ ';') :
    rsplitSpSemi s = none := by
  induction s with
  | nil => rfl
  | cons c1 cs ih =>
    cases cs with
    | nil => rfl
    | cons c2 rest =>
      rw [rsplitSpSemi, ih (fun c hc => h c (by simp [List.mem_cons] at hc ⊢; tauto))]
      have h2 : c2 ≠ ';' := h c2 (by simp)
      simp [h2]

/-- `write_split_long_string`: write each character, preceded by a space at
every index divisible by 56. -/
def writeSplitLongAux : List Char → Nat → List Char
  | [], _ => []
  | c :: cs, i => (if i % 56 = 0 then [' ', c] else [c]) ++ writeSplitLongAux cs (i + 1)

def writeSplitLong (field : List Char) : List Char := writeSplitLongAux field 0

theorem writeSplitLongAux_filter {p : Char → Bool} (hsp : p ' ' = true) {f : List Char}
    (hf : ∀ c ∈ f, p c = false) :
    ∀ i, (writeSplitLongAux f i).filter (fun c => !p c) = f := by
  induction f with
  | nil => intro i; rfl
  | cons c cs ih =>
    intro i
    have hc : p c = false := hf c (by simp)
    by_cases hi : i % 56 = 0 <;>
      simp [writeSplitLongAux, hi, List.filter_cons, hsp, hc,
        ih (fun d hd => hf d (by simp [hd]))]

theorem splitWs_sep_cons (p : Char → Bool) {c : Char} (hc : p c = true) (t : List Char) :
    splitWs p (c :: t) = splitWs p t := by
  simp [splitWs, splitWsAux, hc]

theorem splitWs_append_writeSplitLong {p : Char → Bool} (hsp : p ' ' = true)
    (s : List Char) (f : List Char) :
    splitWs p (s ++ writeSplitLong f) = splitWs p s ++ splitWs p (writeSplitLong f) := by
  cases f with
  | nil => simp [writeSplitLong, writeSplitLongAux, splitWs_nil]
  | cons c cs =>
    have hshape : writeSplitLong (c :: cs) = ' ' :: (c :: writeSplitLongAux cs 1) := by
      simp [writeSplitLong, writeSplitLongAux]
    rw [hshape, splitWs_sep p hsp, splitWs_sep_cons p hsp]

theorem flatten_splitWs_writeSplitLong {p : Char → Bool} (hsp : p ' ' = true)
    {f : List Char} (hf : ∀ c ∈ f, p c = false) :
    (splitWs p (writeSplitLong f)).flatten = f := by
  rw [splitWs_join]
  exact writeSplitLongAux_filter hsp hf 0

/-- Lowercase hex digits, as produced by Rust `{:02x}` formatting. -/
def hexDigitChar : Nat → Char
  | 0 => '0' | 1 => '1' | 2 => '2' | 3 => '3' | 4 => '4'
  | 5 => '5' | 6 => '6' | 7 => '7' | 8 => '8' | 9 => '9'
  | 10 => 'a' | 11 => 'b' | 12 => 'c' | 13 => 'd' | 14 => 'e' | _ => 'f'

/-- One byte written with `{:02x}`. -/
def hexPair (b : Nat) : List Char := [hexDigitChar (b / 16 % 16), hexDigitChar (b % 16)]

/-- Value of a hex digit, as accepted by the `hex` crate (both cases). -/
def hexVal (c : Char) : Option Nat :=
  if 0x30 ≤ c.toNat ∧ c.toNat ≤ 0x39 then some (c.toNat - 0x30)
  else if 0x61 ≤ c.toNat ∧ c.toNat ≤ 0x66 then some (c.toNat - 0x61 + 10)
  else if 0x41 ≤ c.toNat ∧ c.toNat ≤ 0x46 then some (c.toNat - 0x41 + 10)
  else none

/-- Modelled from the spec: the `hex` crate's `decode` (an external
collaborator): pairs of hex digits, odd length rejected. -/
def hexDecodeCol : List Char → Option (List Nat)
  | [] => some []
  | [_] => none
  | a :: b :: rest =>
    match hexVal a, hexVal b, hexDecodeCol rest with
    | some x, some y, some l => some ((x * 16 + y) :: l)
    | _, _, _ => none

theorem hexVal_hexDigitChar {d : Nat} (h : d < 16) : hexVal (hexDigitChar d) = some d := by
  interval_cases d <;> rfl

theorem hexDecodeCol_hexPair {b : Nat} (h : b < 256) : hexDecodeCol (hexPair b) = some [b] := by
  have h1 : b / 16 % 16 = b / 16 := Nat.mod_eq_of_lt (by omega)
  have h2 : b / 16 < 16 := by omega
  have h3 : b % 16 < 16 := Nat.mod_lt _ (by omega)
  simp only [hexPair, h1, hexDecodeCol, hexVal_hexDigitChar h2, hexVal_hexDigitChar h3]
  have : b / 16 * 16 + b % 16 = b := by omega
  rw [this]

theorem hexDigitChar_not_ws (d : Nat) : rustIsWhitespace (hexDigitChar d) = false := by
  rcases d with _|_|_|_|_|_|_|_|_|_|_|_|_|_|_|_ <;> rfl

/-- Value of a standard-alphabet base64 character. -/
def b64Val (c : Char) : Option Nat :=
  if 0x41 ≤ c.toNat ∧ c.toNat ≤ 0x5A then some (c.toNat - 0x41)
  else if 0x61 ≤ c.toNat ∧ c.toNat ≤ 0x7A then some (c.toNat - 0x61 + 26)
  else if 0x30 ≤ c.toNat ∧ c.toNat ≤ 0x39 then some (c.toNat - 0x30 + 52)
  else if c = '+' then some 62
  else if c = '/' then some 63
  else none

/-- Modelled from the spec: `BASE64_STANDARD.decode` of the `base64` crate (an
external collaborator): standard alphabet, canonical trailing `=` padding,
non-zero trailing bits rejected. -/
def base64Decode : List Char → Option (List Nat)
  | [] => some []
  | a :: b :: c :: d :: rest =>
    match b64Val a, b64Val b with
    | some va, some vb =>
      if c = '=' then
        if d = '=' ∧ rest = [] ∧ vb % 16 = 0 then some [va * 4 + vb / 16] else none
      else
        match b64Val c with
        | some vc =>
          if d = '=' then
            if rest = [] ∧ vc % 4 = 0 then some [va * 4 + vb / 16, vb % 16 * 16 + vc / 4]
            else none
          else
            match b64Val d, base64Decode rest with
            | some vd, some l =>
              some ((va * 4 + vb / 16) :: (vb % 16 * 16 + vc / 4) :: (vc % 4 * 64 + vd) :: l)
            | _, _ => none
        | none => none
    | _, _ => none
  | _ => none

/-- ASCII fragment of Rust `str::to_lowercase`. -/
def asciiLower (c : Char) : Char :=
  if 0x41 ≤ c.toNat ∧ c.toNat ≤ 0x5A then Char.ofNat (c.toNat + 32) else c

theorem asciiLower_digit {c : Char} (h : isDigitChar c = true) : asciiLower c = c := by
  simp only [isDigitChar, Bool.and_eq_true, decide_eq_true_eq] at h
  simp only [asciiLower, ite_eq_right_iff]
  omega

namespace DnsTest

/-! ## The dns-test record module (`conformance/packages/dns-test/src/record.rs`) -/

/-- Characters of a canonical (lowercase) domain name: digits, lowercase
letters, `-`, `.`, `_`. -/
def fqdnChar (c : Char) : Bool :=
  (0x30 ≤ c.toNat && c.toNat ≤ 0x39) || (0x61 ≤ c.toNat && c.toNat ≤ 0x7A) ||
  c.toNat == 0x2D || c.toNat == 0x2E || c.toNat == 0x5F

structure FQDN where
  chars : List Char
deriving DecidableEq

/-- Modelled from the spec: the dns-test `FQDN` constructor (the type lives
outside the provided sources; the spec requires the trailing dot and lowercase
canonical names).  A valid name is returned verbatim. -/
def FQDN.fromStr (s : List Char) : RRes FQDN :=
  if s ≠ [] ∧ s.getLast? = some '.' ∧ s.all fqdnChar then .ok ⟨s⟩
  else .err "invalid FQDN".toList

def FQDN.display (f : FQDN) : List Char := f.chars

def FQDN.wf (f : FQDN) : Bool :=
  !f.chars.isEmpty && f.chars.getLast? == some '.' && f.chars.all fqdnChar

structure Ipv4Addr where
  a : Nat
  b : Nat
  c : Nat
  d : Nat
deriving DecidableEq

def Ipv4Addr.wf (ip : Ipv4Addr) : Bool :=
  ip.a < 256 && ip.b < 256 && ip.c < 256 && ip.d < 256

/-- Modelled from the spec: `std::net::Ipv4Addr` `Display` (dotted quad). -/
def Ipv4Addr.display (ip : Ipv4Addr) : List Char :=
  natToChars ip.a ++ '.' :: (natToChars ip.b ++ '.' :: (natToChars ip.c ++ '.' :: natToChars ip.d))

/-- Split at every `'.'`, keeping empty pieces (for the dotted-quad parser). -/
def splitDots : List Char → List (List Char)
  | [] => [[]]
  | c :: cs =>
    if c = '.' then [] :: splitDots cs
    else
      match splitDots cs with
      | p :: ps => (c :: p) :: ps
      | [] => [[c]]

/-- One octet of `Ipv4Addr::from_str`: decimal digits, no leading zero, ≤ 255. -/
def parseOctet (s : List Char) : Option Nat :=
  match s with
  | [] => none
  | c :: rest =>
    if c = '0' then (if rest = [] then some 0 else none)
    else parseDigits 255 (c :: rest) 0

/-- Modelled from the spec: `std::net::Ipv4Addr` `FromStr` (dotted quad). -/
def Ipv4Addr.fromStr (s : List Char) : RRes Ipv4Addr :=
  match splitDots s with
  | [sa, sb, sc, sd] =>
    match parseOctet sa, parseOctet sb, parseOctet sc, parseOctet sd with
    | some a, some b, some c, some d => .ok ⟨a, b, c, d⟩
    | _, _, _, _ => .err "invalid IPv4 address syntax".toList
  | _ => .err "invalid IPv4 address syntax".toList

/-- `check_class`: only `IN` is accepted. -/
def checkClass (cls : List Char) : RRes Unit :=
  if cls = "IN".toList then .ok () else .err "unknown class".toList

/-- `check_record_type::<T>`: the type column must equal the parser's type. -/
def checkRecordType (expected tok : List Char) : RRes Unit :=
  if tok = expected then .ok ()
  else .err "tried to parse record as a different record type".toList

/-- `RecordType` of the `record_types!` macro: the named variants plus
`Unknown(u16)`. -/
inductive RecordType where
  | A | AAAA | CAA | CNAME | DNSKEY | DS | MX | NS
  | NSEC | NSEC3 | NSEC3PARAM | RRSIG | SOA | TXT
  | Unknown (code : Nat)
deriving DecidableEq

def RecordType.wf : RecordType → Bool
  | .Unknown code => code < 65536
  | _ => true

/-- `RecordType::as_name`. -/
def RecordType.asName : RecordType → List Char
  | .A => "A".toList
  | .AAAA => "AAAA".toList
  | .CAA => "CAA".toList
  | .CNAME => "CNAME".toList
  | .DNSKEY => "DNSKEY".toList
  | .DS => "DS".toList
  | .MX => "MX".toList
  | .NS => "NS".toList
  | .NSEC => "NSEC".toList
  | .NSEC3 => "NSEC3".toList
  | .NSEC3PARAM => "NSEC3PARAM".toList
  | .RRSIG => "RRSIG".toList
  | .SOA => "SOA".toList
  | .TXT => "TXT".toList
  | .Unknown code => "type".toList ++ natToChars code

/-- `type` with the four leading characters lowercased away. -/
def stripLowerType : List Char → Option (List Char)
  | 't' :: 'y' :: 'p' :: 'e' :: rest => some rest
  | _ => none

/-- `FromStr for RecordType`: the named mnemonics, else lowercase and accept
`typeN`. -/
def RecordType.fromStr (input : List Char) : RRes RecordType :=
  if input = "A".toList then .ok .A
  else if input = "AAAA".toList then .ok .AAAA
  else if input = "CAA".toList then .ok .CAA
  else if input = "CNAME".toList then .ok .CNAME
  else if input = "DNSKEY".toList then .ok .DNSKEY
  else if input = "DS".toList then .ok .DS
  else if input = "MX".toList then .ok .MX
  else if input = "NS".toList then .ok .NS
  else if input = "NSEC".toList then .ok .NSEC
  else if input = "NSEC3".toList then .ok .NSEC3
  else if input = "NSEC3PARAM".toList then .ok .NSEC3PARAM
  else if input = "RRSIG".toList then .ok .RRSIG
  else if input = "SOA".toList then .ok .SOA
  else if input = "TXT".toList then .ok .TXT
  else
    match stripLowerType (input.map asciiLower) with
    | some typeCodeStr =>
      match parseUint U16MAX typeCodeStr with
      | some typeCode => .ok (.Unknown typeCode)
      | none => .err "unknown record type".toList
    | none => .err "unknown record type".toList

structure A where
  fqdn : FQDN
  ttl : Nat
  ipv4_addr : Ipv4Addr
deriving DecidableEq

def A.display (a : A) : List Char :=
  a.fqdn.chars ++ '\t' :: (natToChars a.ttl ++ '\t' :: ("IN".toList ++ '\t' ::
    ("A".toList ++ '\t' :: a.ipv4_addr.display)))

def A.fromStr (input : List Char) : RRes A :=
  match splitWs rustIsWhitespace input with
  | [fqdn, ttl, cls, rty, ip] =>
    RRes.bind (checkRecordType "A".toList rty) fun _ =>
    RRes.bind (checkClass cls) fun _ =>
    RRes.bind (FQDN.fromStr fqdn) fun z =>
    RRes.bind (RRes.ofOpt (parseUint U32MAX ttl) "invalid digit".toList) fun t =>
    RRes.bind (Ipv4Addr.fromStr ip) fun i =>
    RRes.ok ⟨z, t, i⟩
  | _ => RRes.err "expected 5 columns".toList

structure CNAME where
  fqdn : FQDN
  ttl : Nat
  target : FQDN
deriving DecidableEq

def CNAME.display (r : CNAME) : List Char :=
  r.fqdn.chars ++ '\t' :: (natToChars r.ttl ++ '\t' :: ("IN".toList ++ '\t' ::
    ("CNAME".toList ++ '\t' :: r.target.chars)))

def CNAME.fromStr (input : List Char) : RRes CNAME :=
  match splitWs rustIsWhitespace input with
  | [fqdn, ttl, cls, rty, target] =>
    RRes.bind (checkRecordType "CNAME".toList rty) fun _ =>
    RRes.bind (checkClass cls) fun _ =>
    RRes.bind (FQDN.fromStr fqdn) fun z =>
    RRes.bind (RRes.ofOpt (parseUint U32MAX ttl) "invalid digit".toList) fun t =>
    RRes.bind (FQDN.fromStr target) fun tg =>
    RRes.ok ⟨z, t, tg⟩
  | _ => RRes.err "expected 5 columns".toList

structure NS where
  zone : FQDN
  ttl : Nat
  nameserver : FQDN
deriving DecidableEq

def NS.display (r : NS) : List Char :=
  r.zone.chars ++ '\t' :: (natToChars r.ttl ++ '\t' :: ("IN".toList ++ '\t' ::
    ("NS".toList ++ '\t' :: r.nameserver.chars)))

def NS.fromStr (input : List Char) : RRes NS :=
  match splitWs rustIsWhitespace input with
  | [zone, ttl, cls, rty, nameserver] =>
    RRes.bind (checkRecordType "NS".toList rty) fun _ =>
    RRes.bind (checkClass cls) fun _ =>
    RRes.bind (FQDN.fromStr zone) fun z =>
    RRes.bind (RRes.ofOpt (parseUint U32MAX ttl) "invalid digit".toList) fun t =>
    RRes.bind (FQDN.fromStr nameserver) fun ns =>
    RRes.ok ⟨z, t, ns⟩
  | _ => RRes.err "expected 5 columns".toList

structure DNSKEYRData where
  flags : Nat
  protocol : Nat
  algorithm : Nat
  public_key : List Char
deriving DecidableEq

structure DNSKEY where
  zone : FQDN
  ttl : Nat
  rdata : DNSKEYRData
deriving DecidableEq

def DNSKEY.display (r : DNSKEY) : List Char :=
  r.zone.chars ++ '\t' :: (natToChars r.ttl ++ '\t' :: ("IN".toList ++ '\t' ::
    ("DNSKEY".toList ++ '\t' :: (natToChars r.rdata.flags ++ ' ' ::
      (natToChars r.rdata.protocol ++ ' ' ::
        (natToChars r.rdata.algorithm ++ writeSplitLong r.rdata.public_key))))))

/-- `FromStr for DNSKEY`: strip a trailing ` ;comment`, then at least 7
columns; the remaining columns are concatenated into the base64 key. -/
def DNSKEY.fromStr (input0 : List Char) : RRes DNSKEY :=
  let input :=
    match rsplitSpSemi input0 with
    | some (rr, _comment) => trimEndChars rr
    | none => input0
  match splitWs rustIsWhitespace input with
  | zone :: ttl :: cls :: rty :: flags :: protocol :: algorithm :: rest =>
    RRes.bind (checkRecordType "DNSKEY".toList rty) fun _ =>
    RRes.bind (checkClass cls) fun _ =>
    RRes.bind (FQDN.fromStr zone) fun z =>
    RRes.bind (RRes.ofOpt (parseUint U32MAX ttl) "invalid digit".toList) fun t =>
    RRes.bind (RRes.ofOpt (parseUint U16MAX flags) "invalid digit".toList) fun fl =>
    RRes.bind (RRes.ofOpt (parseUint U8MAX protocol) "invalid digit".toList) fun pr =>
    RRes.bind (RRes.ofOpt (parseUint U8MAX algorithm) "invalid digit".toList) fun al =>
    RRes.ok ⟨z, t, ⟨fl, pr, al, rest.flatten⟩⟩
  | _ => RRes.err "expected at least 7 columns".toList

structure DS where
  zone : FQDN
  ttl : Nat
  key_tag : Nat
  algorithm : Nat
  digest_type : Nat
  digest : List Char
deriving DecidableEq

def DS.display (r : DS) : List Char :=
  r.zone.chars ++ '\t' :: (natToChars r.ttl ++ '\t' :: ("IN".toList ++ '\t' ::
    ("DS".toList ++ '\t' :: (natToChars r.key_tag ++ ' ' ::
      (natToChars r.algorithm ++ ' ' ::
        (natToChars r.digest_type ++ writeSplitLong r.digest))))))

def DS.fromStr (input : List Char) : RRes DS :=
  match splitWs rustIsWhitespace input with
  | zone :: ttl :: cls :: rty :: key_tag :: algorithm :: digest_type :: rest =>
    RRes.bind (checkRecordType "DS".toList rty) fun _ =>
    RRes.bind (checkClass cls) fun _ =>
    RRes.bind (FQDN.fromStr zone) fun z =>
    RRes.bind (RRes.ofOpt (parseUint U32MAX ttl) "invalid digit".toList) fun t =>
    RRes.bind (RRes.ofOpt (parseUint U16MAX key_tag) "invalid digit".toList) fun kt =>
    RRes.bind (RRes.ofOpt (parseUint U8MAX algorithm) "invalid digit".toList) fun al =>
    RRes.bind (RRes.ofOpt (parseUint U8MAX digest_type) "invalid digit".toList) fun dt =>
    RRes.ok ⟨z, t, kt, al, dt, rest.flatten⟩
  | _ => RRes.err "expected at least 7 columns".toList

/-- Sequential parse of the trailing `RecordType` columns of NSEC/NSEC3. -/
def parseRecordTypes : List (List Char) → RRes (List RecordType)
  | [] => .ok []
  | col :: rest =>
    RRes.bind (RecordType.fromStr col) fun rt =>
    RRes.bind (parseRecordTypes rest) fun rts =>
    .ok (rt :: rts)

/-- Emission of the trailing record-type list: a space before each name. -/
def displayRecordTypes : List RecordType → List Char
  | [] => []
  | rt :: rest => ' ' :: (rt.asName ++ displayRecordTypes rest)

structure NSEC where
  fqdn : FQDN
  ttl : Nat
  next_domain : FQDN
  record_types : List RecordType
deriving DecidableEq

def NSEC.display (r : NSEC) : List Char :=
  r.fqdn.chars ++ '\t' :: (natToChars r.ttl ++ '\t' :: ("IN".toList ++ '\t' ::
    ("NSEC".toList ++ '\t' :: (r.next_domain.chars ++
      displayRecordTypes r.record_types))))

def NSEC.fromStr (input : List Char) : RRes NSEC :=
  match splitWs rustIsWhitespace input with
  | fqdn :: ttl :: cls :: rty :: next_domain :: rest =>
    RRes.bind (checkRecordType "NSEC".toList rty) fun _ =>
    RRes.bind (checkClass cls) fun _ =>
    RRes.bind (parseRecordTypes rest) fun rts =>
    RRes.bind (FQDN.fromStr fqdn) fun z =>
    RRes.bind (RRes.ofOpt (parseUint U32MAX ttl) "invalid digit".toList) fun t =>
    RRes.bind (FQDN.fromStr next_domain) fun nd =>
    RRes.ok ⟨z, t, nd, rts⟩
  | _ => RRes.err "expected at least 5 columns".toList

structure NSEC3 where
  fqdn : FQDN
  ttl : Nat
  hash_alg : Nat
  flags : Nat
  iterations : Nat
  salt : List Char
  next_hashed_owner_name : List Char
  record_types : List RecordType
deriving DecidableEq

/-- NSEC3 emission; note the two spaces between the salt and the next hashed
owner name. -/
def NSEC3.display (r : NSEC3) : List Char :=
  r.fqdn.chars ++ '\t' :: (natToChars r.ttl ++ '\t' :: ("IN".toList ++ '\t' ::
    ("NSEC3".toList ++ '\t' :: (natToChars r.hash_alg ++ ' ' ::
      (natToChars r.flags ++ ' ' :: (natToChars r.iterations ++ ' ' ::
        (r.salt ++ ' ' :: ' ' :: (r.next_hashed_owner_name ++
          displayRecordTypes r.record_types))))))))

def NSEC3.fromStr (input : List Char) : RRes NSEC3 :=
  match splitWs rustIsWhitespace input with
  | fqdn :: ttl :: cls :: rty :: hash_alg :: flags :: iterations :: salt ::
      next_hashed_owner_name :: rest =>
    RRes.bind (checkRecordType "NSEC3".toList rty) fun _ =>
    RRes.bind (checkClass cls) fun _ =>
    RRes.bind (parseRecordTypes rest) fun rts =>
    RRes.bind (FQDN.fromStr fqdn) fun z =>
    RRes.bind (RRes.ofOpt (parseUint U32MAX ttl) "invalid digit".toList) fun t =>
    RRes.bind (RRes.ofOpt (parseUint U8MAX hash_alg) "invalid digit".toList) fun ha =>
    RRes.bind (RRes.ofOpt (parseUint U8MAX flags) "invalid digit".toList) fun fl =>
    RRes.bind (RRes.ofOpt (parseUint U16MAX iterations) "invalid digit".toList) fun it =>
    RRes.ok ⟨z, t, ha, fl, it, salt, next_hashed_owner_name, rts⟩
  | _ => RRes.err "expected at least 9 columns".toList

structure NSEC3PARAM where
  zone : FQDN
  ttl : Nat
  hash_alg : Nat
  flags : Nat
  iterations : Nat
deriving DecidableEq

def NSEC3PARAM.display (r : NSEC3PARAM) : List Char :=
  r.zone.chars ++ '\t' :: (natToChars r.ttl ++ '\t' :: ("IN".toList ++ '\t' ::
    ("NSEC3PARAM".toList ++ '\t' :: (natToChars r.hash_alg ++ ' ' ::
      (natToChars r.flags ++ ' ' :: (natToChars r.iterations ++ ' ' :: ['-']))))))

/-- `FromStr for NSEC3PARAM`: exactly 8 columns; a salt column other than `-`
hits `todo!("salt is not implemented")`, i.e. a panic. -/
def NSEC3PARAM.fromStr (input : List Char) : RRes NSEC3PARAM :=
  match splitWs rustIsWhitespace input with
  | [zone, ttl, cls, rty, hash_alg, flags, iterations, dash] =>
    RRes.bind (checkRecordType "NSEC3PARAM".toList rty) fun _ =>
    RRes.bind (checkClass cls) fun _ =>
    if dash ≠ "-".toList then RRes.panicked "salt is not implemented".toList
    else
      RRes.bind (FQDN.fromStr zone) fun z =>
      RRes.bind (RRes.ofOpt (parseUint U32MAX ttl) "invalid digit".toList) fun t =>
      RRes.bind (RRes.ofOpt (parseUint U8MAX hash_alg) "invalid digit".toList) fun ha =>
      RRes.bind (RRes.ofOpt (parseUint U8MAX flags) "invalid digit".toList) fun fl =>
      RRes.bind (RRes.ofOpt (parseUint U16MAX iterations) "invalid digit".toList) fun it =>
      RRes.ok ⟨z, t, ha, fl, it⟩
  | _ => RRes.err "expected 8 columns".toList

structure RRSIG where
  fqdn : FQDN
  ttl : Nat
  type_covered : RecordType
  algorithm : Nat
  labels : Nat
  original_ttl : Nat
  signature_expiration : Nat
  signature_inception : Nat
  key_tag : Nat
  signer_name : FQDN
  signature : List Char
deriving DecidableEq

def RRSIG.display (r : RRSIG) : List Char :=
  r.fqdn.chars ++ '\t' :: (natToChars r.ttl ++ '\t' :: ("IN".toList ++ '\t' ::
    ("RRSIG".toList ++ '\t' :: (r.type_covered.asName ++ ' ' ::
      (natToChars r.algorithm ++ ' ' :: (natToChars r.labels ++ ' ' ::
        (natToChars r.original_ttl ++ ' ' ::
          (natToChars r.signature_expiration ++ ' ' ::
            (natToChars r.signature_inception ++ ' ' ::
              (natToChars r.key_tag ++ ' ' :: (r.signer_name.chars ++
                writeSplitLong r.signature)))))))))))

def RRSIG.fromStr (input : List Char) : RRes RRSIG :=
  match splitWs rustIsWhitespace input with
  | fqdn :: ttl :: cls :: rty :: type_covered :: algorithm :: labels :: original_ttl ::
      signature_expiration :: signature_inception :: key_tag :: signer_name :: rest =>
    RRes.bind (checkRecordType "RRSIG".toList rty) fun _ =>
    RRes.bind (checkClass cls) fun _ =>
    RRes.bind (FQDN.fromStr fqdn) fun z =>
    RRes.bind (RRes.ofOpt (parseUint U32MAX ttl) "invalid digit".toList) fun t =>
    RRes.bind (RecordType.fromStr type_covered) fun tc =>
    RRes.bind (RRes.ofOpt (parseUint U8MAX algorithm) "invalid digit".toList) fun al =>
    RRes.bind (RRes.ofOpt (parseUint U8MAX labels) "invalid digit".toList) fun lb =>
    RRes.bind (RRes.ofOpt (parseUint U32MAX original_ttl) "invalid digit".toList) fun ot =>
    RRes.bind (RRes.ofOpt (parseUint U64MAX signature_expiration) "invalid digit".toList) fun se =>
    RRes.bind (RRes.ofOpt (parseUint U64MAX signature_inception) "invalid digit".toList) fun si =>
    RRes.bind (RRes.ofOpt (parseUint U16MAX key_tag) "invalid digit".toList) fun kt =>
    RRes.bind (FQDN.fromStr signer_name) fun sn =>
    RRes.ok ⟨z, t, tc, al, lb, ot, se, si, kt, sn, rest.flatten⟩
  | _ => RRes.err "expected at least 12 columns".toList

structure SoaSettings where
  serial : Nat
  refresh : Nat
  retry : Nat
  expire : Nat
  minimum : Nat
deriving DecidableEq

def SoaSettings.display (s : SoaSettings) : List Char :=
  natToChars s.serial ++ ' ' :: (natToChars s.refresh ++ ' ' ::
    (natToChars s.retry ++ ' ' :: (natToChars s.expire ++ ' ' ::
      natToChars s.minimum)))

structure SOA where
  zone : FQDN
  ttl : Nat
  nameserver : FQDN
  admin : FQDN
  settings : SoaSettings
deriving DecidableEq

def SOA.display (r : SOA) : List Char :=
  r.zone.chars ++ '\t' :: (natToChars r.ttl ++ '\t' :: ("IN".toList ++ '\t' ::
    ("SOA".toList ++ '\t' :: (r.nameserver.chars ++ ' ' ::
      (r.admin.chars ++ ' ' :: r.settings.display)))))

def SOA.fromStr (input : List Char) : RRes SOA :=
  match splitWs rustIsWhitespace input with
  | [zone, ttl, cls, rty, nameserver, admin, serial, refresh, retry, expire, minimum] =>
    RRes.bind (checkRecordType "SOA".toList rty) fun _ =>
    RRes.bind (checkClass cls) fun _ =>
    RRes.bind (FQDN.fromStr zone) fun z =>
    RRes.bind (RRes.ofOpt (parseUint U32MAX ttl) "invalid digit".toList) fun t =>
    RRes.bind (FQDN.fromStr nameserver) fun ns =>
    RRes.bind (FQDN.fromStr admin) fun ad =>
    RRes.bind (RRes.ofOpt (parseUint U32MAX serial) "invalid digit".toList) fun se =>
    RRes.bind (RRes.ofOpt (parseUint U32MAX refresh) "invalid digit".toList) fun rf =>
    RRes.bind (RRes.ofOpt (parseUint U32MAX retry) "invalid digit".toList) fun rt =>
    RRes.bind (RRes.ofOpt (parseUint U32MAX expire) "invalid digit".toList) fun ex =>
    RRes.bind (RRes.ofOpt (parseUint U32MAX minimum) "invalid digit".toList) fun mi =>
    RRes.ok ⟨z, t, ns, ad, ⟨se, rf, rt, ex, mi⟩⟩
  | _ => RRes.err "expected 11 columns".toList

/-- Tokeniser states of the TXT rdata state machine. -/
inductive TxtState where
  | whitespace
  | unquoted
  | quoted
deriving DecidableEq

/-- The TXT rdata state machine, mirroring the `match (state, character)` arms
in order.  `cur` is `current_string`, `acc` is `character_strings`. -/
def txtRun : TxtState → List Char → List Char → List (List Char) → RRes (List (List Char))
  | st, [], cur, acc =>
    match st with
    | .whitespace => RRes.ok acc
    | .unquoted => RRes.ok (acc ++ [cur])
    | .quoted => RRes.err "quoted string in TXT record was not closed".toList
  | st, c :: rest, cur, acc =>
    if 0x80 ≤ c.toNat then
      RRes.err "non-ASCII characters in TXT records are not supported".toList
    else
      match st with
      | .whitespace =>
        if isAsciiWs c then txtRun .whitespace rest cur acc
        else if c = '"' then txtRun .quoted rest cur acc
        else if c = '(' then RRes.err "multi-line TXT records are not supported".toList
        else if c = '@' then
          RRes.err "denoting the current origin with @ in TXT records is not supported".toList
        else if c = '\\' then
          RRes.err "backslash escapes in TXT records are not supported".toList
        else txtRun .unquoted rest (cur ++ [c]) acc
      | .unquoted =>
        if isAsciiWs c then txtRun .whitespace rest [] (acc ++ [cur])
        else if c = '@' then
          RRes.err "denoting the current origin with @ in TXT records is not supported".toList
        else if c = '\\' then
          RRes.err "backslash escapes in TXT records are not supported".toList
        else txtRun .unquoted rest (cur ++ [c]) acc
      | .quoted =>
        if c = '"' then txtRun .whitespace rest [] (acc ++ [cur])
        else if c = '@' then
          RRes.err "denoting the current origin with @ in TXT records is not supported".toList
        else if c = '\\' then
          RRes.err "backslash escapes in TXT records are not supported".toList
        else txtRun .quoted rest (cur ++ [c]) acc

/-- One iteration of the TXT header-column extraction: `split_once` at ASCII
whitespace, trimming the remainder; at the end of input, the trimmed rest. -/
def txtNextColumn (rest : List Char) : Option (List Char) × List Char :=
  match splitOnceAsciiWs rest with
  | some (l, r) => (some l, trimChars r)
  | none =>
    let t := trimChars rest
    (if t = [] then none else some t, [])

structure TXT where
  zone : FQDN
  ttl : Nat
  character_strings : List (List Char)
deriving DecidableEq

/-- TXT emission: each character string double-quoted; tab before the first,
single space before the rest. -/
def txtStringsRest : List (List Char) → List Char
  | [] => []
  | s :: rest => ' ' :: '"' :: (s ++ '"' :: txtStringsRest rest)

def txtStringsDisplay : List (List Char) → List Char
  | [] => []
  | s :: rest => '\t' :: '"' :: (s ++ '"' :: txtStringsRest rest)

def TXT.display (r : TXT) : List Char :=
  r.zone.chars ++ '\t' :: (natToChars r.ttl ++ '\t' :: ("IN".toList ++ '\t' ::
    ("TXT".toList ++ txtStringsDisplay r.character_strings)))

def TXT.fromStr (input : List Char) : RRes TXT :=
  let s1 := txtNextColumn input
  let s2 := txtNextColumn s1.2
  let s3 := txtNextColumn s2.2
  let s4 := txtNextColumn s3.2
  match s1.1, s2.1, s3.1, s4.1 with
  | some zone, some ttl, some cls, some rty =>
    RRes.bind (checkRecordType "TXT".toList rty) fun _ =>
    RRes.bind (checkClass cls) fun _ =>
    RRes.bind (txtRun .whitespace s4.2 [] []) fun character_strings =>
    if character_strings = [] then RRes.err "expected at least 5 columns".toList
    else
      RRes.bind (FQDN.fromStr zone) fun z =>
      RRes.bind (RRes.ofOpt (parseUint U32MAX ttl) "invalid digit".toList) fun t =>
      RRes.ok ⟨z, t, character_strings⟩
  | _, _, _, _ => RRes.err "expected at least 5 columns".toList

structure CAA where
  zone : FQDN
  ttl : Nat
  flags : Nat
  tag : List Char
  value : List Char
deriving DecidableEq

def CAA.display (r : CAA) : List Char :=
  r.zone.chars ++ '\t' :: (natToChars r.ttl ++ '\t' :: ("IN".toList ++ '\t' ::
    ("CAA".toList ++ '\t' :: (natToChars r.flags ++ ' ' :: (r.tag ++ ' ' ::
      (if r.value = [] then ['"', '"'] else r.value))))))

def CAA.fromStr (input : List Char) : RRes CAA :=
  match splitWs rustIsWhitespace input with
  | [zone, ttl, cls, rty, flags, tag, value] =>
    RRes.bind (checkRecordType "CAA".toList rty) fun _ =>
    RRes.bind (checkClass cls) fun _ =>
    let value := if value = ['"', '"'] then [] else value
    RRes.bind (FQDN.fromStr zone) fun z =>
    RRes.bind (RRes.ofOpt (parseUint U32MAX ttl) "invalid digit".toList) fun t =>
    RRes.bind (RRes.ofOpt (parseUint U8MAX flags) "invalid digit".toList) fun fl =>
    RRes.ok ⟨z, t, fl, tag, value⟩
  | _ => RRes.err "expected 7 columns".toList

structure UnknownRdata where
  zone : FQDN
  ttl : Nat
  type : Nat
  rdata : List Nat
deriving DecidableEq

def bytesDisplay : List Nat → List Char
  | [] => []
  | b :: rest => ' ' :: (hexPair b ++ bytesDisplay rest)

def UnknownRdata.display (r : UnknownRdata) : List Char :=
  r.zone.chars ++ '\t' :: (natToChars r.ttl ++ '\t' :: ("IN".toList ++ '\t' ::
    (("TYPE".toList ++ natToChars r.type) ++ '\t' :: ('\\' :: '#' :: ' ' ::
      (natToChars r.rdata.length ++ bytesDisplay r.rdata)))))

/-- `record_type.strip_prefix("TYPE")`. -/
def stripTYPE : List Char → Option (List Char)
  | 'T' :: 'Y' :: 'P' :: 'E' :: rest => some rest
  | _ => none

/-- Per-column `hex::decode` with the results appended in order. -/
def hexColumns : List (List Char) → Option (List Nat)
  | [] => some []
  | col :: rest =>
    match hexDecodeCol col, hexColumns rest with
    | some bs, some l => some (bs ++ l)
    | _, _ => none

/-- `FromStr for UnknownRdata`; note the `split_ascii_whitespace` tokenising. -/
def UnknownRdata.fromStr (input : List Char) : RRes UnknownRdata :=
  match splitWs isAsciiWs input with
  | zone :: ttl :: cls :: rty :: generic_encoding_token :: rdata_length :: rest =>
    RRes.bind (checkClass cls) fun _ =>
    match stripTYPE rty with
    | none => RRes.err "tried to parse record as a generic unknown type record".toList
    | some type_number =>
      RRes.bind (RRes.ofOpt (parseUint U16MAX type_number) "invalid digit".toList) fun ty =>
      if generic_encoding_token ≠ ['\\', '#'] then
        RRes.err "tried to parse a record of unknown type but the marker was not present".toList
      else
        RRes.bind (RRes.ofOpt (hexColumns rest) "invalid hex".toList) fun rdata =>
        RRes.bind (RRes.ofOpt (parseUint U64MAX rdata_length) "invalid digit".toList) fun len =>
        if rdata.length ≠ len then RRes.err "inconsistent RDATA length".toList
        else
          RRes.bind (FQDN.fromStr zone) fun z =>
          RRes.bind (RRes.ofOpt (parseUint U32MAX ttl) "invalid digit".toList) fun t =>
          RRes.ok ⟨z, t, ty, rdata⟩
  | _ => RRes.err "expected at least 6 columns".toList

/-- The `Record` union over the parsed RDATA structures. -/
inductive Record where
  | A (a : A)
  | CAA (caa : CAA)
  | CNAME (cname : CNAME)
  | DNSKEY (dnskey : DNSKEY)
  | DS (ds : DS)
  | NS (ns : NS)
  | NSEC (nsec : NSEC)
  | NSEC3 (nsec3 : NSEC3)
  | NSEC3PARAM (nsec3param : NSEC3PARAM)
  | RRSIG (rrsig : RRSIG)
  | SOA (soa : SOA)
  | TXT (txt : TXT)
  | Unknown (other : UnknownRdata)
deriving DecidableEq

def startsWithTYPE : List Char → Bool
  | 'T' :: 'Y' :: 'P' :: 'E' :: _ => true
  | _ => false

/-- `FromStr for Record`: dispatch on the fourth whitespace-separated token. -/
def Record.fromStr (input : List Char) : RRes Record :=
  match (splitWs rustIsWhitespace input)[3]? with
  | none => RRes.err "record is missing the type column".toList
  | some record_type =>
    if record_type = "A".toList then RRes.bind (A.fromStr input) fun v => .ok (.A v)
    else if record_type = "CAA".toList then RRes.bind (CAA.fromStr input) fun v => .ok (.CAA v)
    else if record_type = "CNAME".toList then
      RRes.bind (CNAME.fromStr input) fun v => .ok (.CNAME v)
    else if record_type = "DNSKEY".toList then
      RRes.bind (DNSKEY.fromStr input) fun v => .ok (.DNSKEY v)
    else if record_type = "DS".toList then RRes.bind (DS.fromStr input) fun v => .ok (.DS v)
    else if record_type = "NS".toList then RRes.bind (NS.fromStr input) fun v => .ok (.NS v)
    else if record_type = "NSEC".toList then
      RRes.bind (NSEC.fromStr input) fun v => .ok (.NSEC v)
    else if record_type = "NSEC3".toList then
      RRes.bind (NSEC3.fromStr input) fun v => .ok (.NSEC3 v)
    else if record_type = "NSEC3PARAM".toList then
      RRes.bind (NSEC3PARAM.fromStr input) fun v => .ok (.NSEC3PARAM v)
    else if record_type = "RRSIG".toList then
      RRes.bind (RRSIG.fromStr input) fun v => .ok (.RRSIG v)
    else if record_type = "SOA".toList then
      RRes.bind (SOA.fromStr input) fun v => .ok (.SOA v)
    else if record_type = "TXT".toList then
      RRes.bind (TXT.fromStr input) fun v => .ok (.TXT v)
    else if startsWithTYPE record_type then
      RRes.bind (UnknownRdata.fromStr input) fun v => .ok (.Unknown v)
    else RRes.err "unknown record type".toList

/-- `Display for Record`. -/
def Record.display : Record → List Char
  | .A a => a.display
  | .CAA caa => caa.display
  | .CNAME cname => cname.display
  | .DNSKEY dnskey => dnskey.display
  | .DS ds => ds.display
  | .NS ns => ns.display
  | .NSEC nsec => nsec.display
  | .NSEC3 nsec3 => nsec3.display
  | .NSEC3PARAM nsec3param => nsec3param.display
  | .RRSIG rrsig => rrsig.display
  | .SOA soa => soa.display
  | .TXT txt => txt.display
  | .Unknown other => other.display

/-! ## Key-tag calculation (`DNSKEYRData::calculate_key_tag`) -/

/-- `u16::to_be_bytes`. -/
def u16BeBytes (n : Nat) : List Nat := [n / 256 % 256, n % 256]

/-- The `rdata.chunks(2)` accumulation loop: big-endian 16-bit chunks summed
into a (wrapping) 32-bit accumulator. -/
def chunkSum : List Nat → Nat → Nat
  | [], acc => acc
  | [b], acc => (acc + b * 256) % 4294967296
  | b1 :: b2 :: rest, acc => chunkSum rest ((acc + (b1 * 256 + b2)) % 4294967296)

/-- `DNSKEYRData::calculate_key_tag` (RFC 4034 appendix B).  The result is
`none` exactly when the Rust function panics: on invalid base64 (the
`expect`), or for algorithm 1 on a decoded key shorter than 3 bytes (where
`len - 3` underflows / slicing goes out of bounds). -/
def DNSKEYRData.calculateKeyTag (r : DNSKEYRData) : Option Nat :=
  match base64Decode r.public_key with
  | none => none
  | some public_key =>
    if r.algorithm = 1 then
      if public_key.length < 3 then none
      else
        some (public_key.getD (public_key.length - 3) 0 * 256 +
          public_key.getD (public_key.length - 2) 0)
    else
      let rdata := u16BeBytes r.flags ++ 3 :: r.algorithm :: public_key
      let acc := chunkSum rdata 0
      some ((acc + acc / 65536) % 4294967296 % 65536)

end DnsTest

namespace Proto

/-- Per-byte accumulation loop of `DNSKEY::calculate_key_tag_internal` in the
proto crate: `ac += u32::from(*k) << (if i & 1 != 0 then 0 else 8)`. -/
def byteSum : List Nat → Nat → Nat → Nat
  | [], _, ac => ac
  | k :: rest, i, ac =>
    byteSum rest (i + 1) ((ac + (if i % 2 = 1 then k else k * 256)) % 4294967296)

/-- `DNSKEY::calculate_key_tag_internal` of the proto crate. -/
def calculateKeyTagInternal (bytes : List Nat) : Nat :=
  let ac := byteSum bytes 0 0
  (ac + ac / 65536) % 4294967296 % 65536

end Proto

/-- The reference checksum of the spec (RFC 2535 appendix C wording): add
`byte << 8` at even indices and `byte` at odd indices into a 32-bit sum. -/
def specKeyTagAcc : List Nat → Nat → Nat → Nat
  | [], _, acc => acc
  | b :: rest, i, acc =>
    specKeyTagAcc rest (i + 1) ((acc + (if i % 2 = 0 then b * 256 else b)) % 4294967296)

/-- The reference key tag, following the spec text: accumulate, then add
`(acc >> 16) & 0xFFFF` exactly once, and return `acc & 0xFFFF`. -/
def specKeyTagChecksum (bytes : List Nat) : Nat :=
  let acc := specKeyTagAcc bytes 0 0
  (acc + acc / 65536 % 65536) % 4294967296 % 65536

theorem byteSum_eq_specAcc : ∀ (l : List Nat) (i ac : Nat),
    Proto.byteSum l i ac = specKeyTagAcc l i ac
  | [], _, _ => rfl
  | k :: rest, i, ac => by
    have : (if i % 2 = 1 then k else k * 256) = (if i % 2 = 0 then k * 256 else k) := by
      rcases Nat.mod_two_eq_zero_or_one i with h | h <;> simp [h]
    rw [Proto.byteSum, specKeyTagAcc, this, byteSum_eq_specAcc rest (i + 1) _]

theorem specAcc_eq_chunkSum : ∀ (l : List Nat) (acc i : Nat), i % 2 = 0 →
    specKeyTagAcc l i acc = DnsTest.chunkSum l acc
  | [], _, _, _ => rfl
  | [b], acc, i, hi => by
    simp [specKeyTagAcc, DnsTest.chunkSum, hi]
  | b1 :: b2 :: rest, acc, i, hi => by
    have h1 : (i + 1) % 2 = 1 := by omega
    have h2 : (i + 2) % 2 = 0 := by omega
    rw [specKeyTagAcc, specKeyTagAcc, DnsTest.chunkSum, hi, if_pos rfl]
    rw [h1, if_neg (by omega)]
    rw [specAcc_eq_chunkSum rest _ (i + 2) h2]
    congr 1
    rw [Nat.mod_add_mod, Nat.add_assoc]

theorem specAcc_lt (l : List Nat) : ∀ acc i, acc < 4294967296 →
    specKeyTagAcc l i acc < 4294967296 := by
  induction l with
  | nil => intro acc i h; exact h
  | cons b rest ih =>
    intro acc i h
    exact ih _ _ (Nat.mod_lt _ (by omega))

namespace DnsTest

/-! ## Well-formedness: the conditions under which a record value prints as a
valid presentation line (field bounds, token characters). -/

theorem fqdnChar_not_ws {c : Char} (h : fqdnChar c = true) : rustIsWhitespace c = false := by
  simp only [fqdnChar, Bool.or_eq_true, Bool.and_eq_true, decide_eq_true_eq,
    beq_iff_eq] at h
  simp only [rustIsWhitespace, Bool.or_eq_false_iff, beq_eq_false_iff_ne, ne_eq,
    Bool.and_eq_false_iff, decide_eq_false_iff_not, not_le]
  omega

theorem not_ws_not_ascii {c : Char} (h : rustIsWhitespace c = false) : isAsciiWs c = false := by
  cases hca : isAsciiWs c
  · rfl
  · rw [isAsciiWs_rust hca] at h
    cases h

theorem fqdnChar_ne_semi {c : Char} (h : fqdnChar c = true) : c ≠ ';' := by
  intro heq
  rw [heq] at h
  exact absurd h (by decide)

theorem isDigitChar_ne_semi {c : Char} (h : isDigitChar c = true) : c ≠ ';' := by
  intro heq
  rw [heq] at h
  exact absurd h (by decide)

/-- A whitespace-free nonempty token. -/
def tokenOk (s : List Char) : Bool :=
  !s.isEmpty && s.all fun c => !rustIsWhitespace c

/-- A whitespace-free string (possibly empty): DS digests, RRSIG signatures. -/
def chunkOk (s : List Char) : Bool :=
  s.all fun c => !rustIsWhitespace c

/-- A DNSKEY public-key text: whitespace-free and semicolon-free, so that the
comment stripping cannot trigger. -/
def pkOk (s : List Char) : Bool :=
  s.all fun c => !rustIsWhitespace c && c.toNat != 0x3B

/-- A TXT character string: ASCII, no `"`, `@` or backslash. -/
def txtStringOk (s : List Char) : Bool :=
  s.all fun c => c.toNat < 0x80 && c.toNat != 0x22 && c.toNat != 0x40 && c.toNat != 0x5C

theorem tokenOk_iff {s : List Char} :
    tokenOk s = true ↔ s ≠ [] ∧ ∀ c ∈ s, rustIsWhitespace c = false := by
  simp [tokenOk, List.isEmpty_iff, List.all_eq_true]

theorem chunkOk_iff {s : List Char} :
    chunkOk s = true ↔ ∀ c ∈ s, rustIsWhitespace c = false := by
  simp [chunkOk, List.all_eq_true]

theorem fqdn_wf_iff {f : FQDN} :
    f.wf = true ↔ f.chars ≠ [] ∧ f.chars.getLast? = some '.' ∧ f.chars.all fqdnChar = true := by
  simp [FQDN.wf, List.isEmpty_iff, Bool.and_eq_true, and_assoc]

theorem fqdn_not_ws {f : FQDN} (h : f.wf = true) :
    ∀ c ∈ f.chars, rustIsWhitespace c = false := by
  intro c hc
  exact fqdnChar_not_ws (List.all_eq_true.mp (fqdn_wf_iff.mp h).2.2 c hc)

theorem fqdn_ne_nil {f : FQDN} (h : f.wf = true) : f.chars ≠ [] :=
  (fqdn_wf_iff.mp h).1

theorem FQDN.fromStr_chars {f : FQDN} (h : f.wf = true) : FQDN.fromStr f.chars = .ok f := by
  obtain ⟨h1, h2, h3⟩ := fqdn_wf_iff.mp h
  rw [FQDN.fromStr, if_pos ⟨h1, h2, h3⟩]

def A.wf (r : A) : Bool :=
  r.fqdn.wf && r.ttl ≤ U32MAX && r.ipv4_addr.wf

def CNAME.wf (r : CNAME) : Bool :=
  r.fqdn.wf && r.ttl ≤ U32MAX && r.target.wf

def NS.wf (r : NS) : Bool :=
  r.zone.wf && r.ttl ≤ U32MAX && r.nameserver.wf

def DNSKEY.wf (r : DNSKEY) : Bool :=
  r.zone.wf && r.ttl ≤ U32MAX && r.rdata.flags ≤ U16MAX && r.rdata.protocol ≤ U8MAX &&
  r.rdata.algorithm ≤ U8MAX && pkOk r.rdata.public_key

def DS.wf (r : DS) : Bool :=
  r.zone.wf && r.ttl ≤ U32MAX && r.key_tag ≤ U16MAX && r.algorithm ≤ U8MAX &&
  r.digest_type ≤ U8MAX && chunkOk r.digest

def NSEC.wf (r : NSEC) : Bool :=
  r.fqdn.wf && r.ttl ≤ U32MAX && r.next_domain.wf && r.record_types.all RecordType.wf

def NSEC3.wf (r : NSEC3) : Bool :=
  r.fqdn.wf && r.ttl ≤ U32MAX && r.hash_alg ≤ U8MAX && r.flags ≤ U8MAX &&
  r.iterations ≤ U16MAX && tokenOk r.salt && tokenOk r.next_hashed_owner_name &&
  r.record_types.all RecordType.wf

def NSEC3PARAM.wf (r : NSEC3PARAM) : Bool :=
  r.zone.wf && r.ttl ≤ U32MAX && r.hash_alg ≤ U8MAX && r.flags ≤ U8MAX &&
  r.iterations ≤ U16MAX

def RRSIG.wf (r : RRSIG) : Bool :=
  r.fqdn.wf && r.ttl ≤ U32MAX && r.type_covered.wf && r.algorithm ≤ U8MAX &&
  r.labels ≤ U8MAX && r.original_ttl ≤ U32MAX && r.signature_expiration ≤ U64MAX &&
  r.signature_inception ≤ U64MAX && r.key_tag ≤ U16MAX && r.signer_name.wf &&
  chunkOk r.signature

def SOA.wf (r : SOA) : Bool :=
  r.zone.wf && r.ttl ≤ U32MAX && r.nameserver.wf && r.admin.wf &&
  r.settings.serial ≤ U32MAX && r.settings.refresh ≤ U32MAX &&
  r.settings.retry ≤ U32MAX && r.settings.expire ≤ U32MAX &&
  r.settings.minimum ≤ U32MAX

def TXT.wf (r : TXT) : Bool :=
  r.zone.wf && r.ttl ≤ U32MAX && !r.character_strings.isEmpty &&
  r.character_strings.all txtStringOk

def CAA.wf (r : CAA) : Bool :=
  r.zone.wf && r.ttl ≤ U32MAX && r.flags ≤ U8MAX && tokenOk r.tag &&
  (r.value.isEmpty || (tokenOk r.value && r.value ≠ ['"', '"']))

def UnknownRdata.wf (r : UnknownRdata) : Bool :=
  r.zone.wf && r.ttl ≤ U32MAX && r.type ≤ U16MAX && r.rdata.length ≤ U64MAX &&
  r.rdata.all (· < 256)

def Record.wf : Record → Bool
  | .A a => a.wf
  | .CAA caa => caa.wf
  | .CNAME cname => cname.wf
  | .DNSKEY dnskey => dnskey.wf
  | .DS ds => ds.wf
  | .NS ns => ns.wf
  | .NSEC nsec => nsec.wf
  | .NSEC3 nsec3 => nsec3.wf
  | .NSEC3PARAM nsec3param => nsec3param.wf
  | .RRSIG rrsig => rrsig.wf
  | .SOA soa => soa.wf
  | .TXT txt => txt.wf
  | .Unknown other => other.wf

end DnsTest

/-! ## Token-splitting helpers for the emitted lines -/

theorem splitWs_tok_sep {p : Char → Bool} {sep : Char} (hsep : p sep = true)
    {t : List Char} (hne : t ≠ []) (ht : ∀ c ∈ t, p c = false) (rest : List Char) :
    splitWs p (t ++ sep :: rest) = t :: splitWs p rest := by
  rw [splitWs_sep p hsep, splitWs_token p t hne ht]
  rfl

theorem wsTab : rustIsWhitespace '\t' = true := by decide

theorem wsSp : rustIsWhitespace ' ' = true := by decide

theorem awsTab : isAsciiWs '\t' = true := by decide

theorem awsSp : isAsciiWs ' ' = true := by decide

namespace DnsTest

/-! ## Round-trip lemmas, per record type -/

theorem splitDots_ne_nil (s : List Char) : splitDots s ≠ [] := by
  cases s with
  | nil => simp [splitDots]
  | cons c cs =>
    rw [splitDots]
    by_cases hc : c = '.'
    · simp [hc]
    · simp only [hc, if_false]
      cases h : splitDots cs <;> simp

theorem splitDots_last (t : List Char) (ht : ∀ c ∈ t, c ≠ '.') : splitDots t = [t] := by
  induction t with
  | nil => rfl
  | cons c t ih =>
    have hc : c ≠ '.' := ht c (by simp)
    rw [splitDots, if_neg hc, ih (fun d hd => ht d (by simp [hd]))]

theorem splitDots_sep (t : List Char) :
    ∀ rest, (∀ c ∈ t, c ≠ '.') → splitDots (t ++ '.' :: rest) = t :: splitDots rest := by
  induction t with
  | nil => intro rest _; simp [splitDots]
  | cons c t ih =>
    intro rest ht
    have hc : c ≠ '.' := ht c (by simp)
    rw [List.cons_append, splitDots, if_neg hc, ih rest (fun d hd => ht d (by simp [hd]))]

theorem isDigitChar_ne_dot {c : Char} (h : isDigitChar c = true) : c ≠ '.' := by
  intro heq
  rw [heq] at h
  exact absurd h (by decide)

theorem natToChars_pos_head : ∀ n : Nat, 0 < n →
    ∃ d cs, natToChars n = digitChar d :: cs ∧ 1 ≤ d ∧ d < 10 := by
  intro n
  induction n using Nat.strong_induction_on with
  | _ n ih =>
    intro hpos
    rw [natToChars_eq]
    split
    · rename_i h
      exact ⟨n, [], rfl, hpos, h⟩
    · rename_i h
      obtain ⟨d, cs, hshape, hd1, hd10⟩ :=
        ih (n / 10) (Nat.div_lt_self (by omega) (by omega)) (by omega)
      exact ⟨d, cs ++ [digitChar (n % 10)], by rw [hshape]; simp, hd1, hd10⟩

theorem parseOctet_natToChars {n : Nat} (h : n ≤ 255) : parseOctet (natToChars n) = some n := by
  rcases Nat.eq_zero_or_pos n with rfl | hpos
  · rfl
  · obtain ⟨d, cs, hshape, hd1, hd10⟩ := natToChars_pos_head n hpos
    have hne0 : digitChar d ≠ '0' := by interval_cases d <;> decide
    have hpd := parseDigits_natToChars 255 n h
    rw [hshape] at hpd ⊢
    simpa [parseOctet, hne0] using hpd

theorem ipv4_display_not_ws (ip : Ipv4Addr) :
    ∀ c ∈ ip.display, rustIsWhitespace c = false := by
  intro c hc
  simp only [Ipv4Addr.display, List.mem_append, List.mem_cons] at hc
  rcases hc with h | h | h | h | h | h | h
  · exact natToChars_not_ws _ c h
  · exact h ▸ (by decide)
  · exact natToChars_not_ws _ c h
  · exact h ▸ (by decide)
  · exact natToChars_not_ws _ c h
  · exact h ▸ (by decide)
  · exact natToChars_not_ws _ c h

theorem ipv4_display_ne_nil (ip : Ipv4Addr) : ip.display ≠ [] := by
  simp [Ipv4Addr.display, natToChars_ne_nil]

theorem Ipv4Addr.fromStr_display {ip : Ipv4Addr} (h : ip.wf = true) :
    Ipv4Addr.fromStr ip.display = .ok ip := by
  obtain ⟨ha, hb, hc, hd⟩ : ip.a < 256 ∧ ip.b < 256 ∧ ip.c < 256 ∧ ip.d < 256 := by
    simpa [Ipv4Addr.wf, Bool.and_eq_true, and_assoc] using h
  have hdig : ∀ n : Nat, ∀ c ∈ natToChars n, c ≠ '.' := fun n c hcm =>
    isDigitChar_ne_dot (natToChars_digits n c hcm)
  unfold Ipv4Addr.fromStr Ipv4Addr.display
  rw [splitDots_sep _ _ (hdig _), splitDots_sep _ _ (hdig _), splitDots_sep _ _ (hdig _),
    splitDots_last _ (hdig _)]
  simp [parseOctet_natToChars (by omega : ip.a ≤ 255),
    parseOctet_natToChars (by omega : ip.b ≤ 255),
    parseOctet_natToChars (by omega : ip.c ≤ 255),
    parseOctet_natToChars (by omega : ip.d ≤ 255)]

theorem A.split_display_a {a : A} (h : a.wf = true) :
    splitWs rustIsWhitespace a.display =
      [a.fqdn.chars, natToChars a.ttl, "IN".toList, "A".toList, a.ipv4_addr.display] := by
  obtain ⟨hf, -, -⟩ : a.fqdn.wf = true ∧ a.ttl ≤ U32MAX ∧ a.ipv4_addr.wf = true := by
    simpa [A.wf, Bool.and_eq_true, and_assoc] using h
  unfold A.display
  rw [splitWs_tok_sep wsTab (fqdn_ne_nil hf) (fqdn_not_ws hf),
    splitWs_tok_sep wsTab (natToChars_ne_nil _) (natToChars_not_ws _),
    splitWs_tok_sep wsTab (by decide) (by decide),
    splitWs_tok_sep wsTab (by decide) (by decide),
    splitWs_token _ _ (ipv4_display_ne_nil _) (ipv4_display_not_ws _)]

theorem A.roundtrip_a {a : A} (h : a.wf = true) : A.fromStr a.display = .ok a := by
  obtain ⟨hf, httl, hip⟩ : a.fqdn.wf = true ∧ a.ttl ≤ U32MAX ∧ a.ipv4_addr.wf = true := by
    simpa [A.wf, Bool.and_eq_true, and_assoc] using h
  unfold A.fromStr
  rw [A.split_display_a h]
  simp [checkRecordType, checkClass, FQDN.fromStr_chars hf,
    parseUint_natToChars httl, Ipv4Addr.fromStr_display hip]

end DnsTest

namespace DnsTest

theorem CNAME.split_display_cname {r : CNAME} (h : r.wf = true) :
    splitWs rustIsWhitespace r.display =
      [r.fqdn.chars, natToChars r.ttl, "IN".toList, "CNAME".toList, r.target.chars] := by
  obtain ⟨hf, -, ht⟩ : r.fqdn.wf = true ∧ r.ttl ≤ U32MAX ∧ r.target.wf = true := by
    simpa [CNAME.wf, Bool.and_eq_true, and_assoc] using h
  unfold CNAME.display
  rw [splitWs_tok_sep wsTab (fqdn_ne_nil hf) (fqdn_not_ws hf),
    splitWs_tok_sep wsTab (natToChars_ne_nil _) (natToChars_not_ws _),
    splitWs_tok_sep wsTab (by decide) (by decide),
    splitWs_tok_sep wsTab (by decide) (by decide),
    splitWs_token _ _ (fqdn_ne_nil ht) (fqdn_not_ws ht)]

theorem CNAME.roundtrip_cname {r : CNAME} (h : r.wf = true) : CNAME.fromStr r.display = .ok r := by
  obtain ⟨hf, httl, ht⟩ : r.fqdn.wf = true ∧ r.ttl ≤ U32MAX ∧ r.target.wf = true := by
    simpa [CNAME.wf, Bool.and_eq_true, and_assoc] using h
  unfold CNAME.fromStr
  rw [CNAME.split_display_cname h]
  simp [checkRecordType, checkClass, FQDN.fromStr_chars hf,
    parseUint_natToChars httl, FQDN.fromStr_chars ht]

theorem NS.split_display_ns {r : NS} (h : r.wf = true) :
    splitWs rustIsWhitespace r.display =
      [r.zone.chars, natToChars r.ttl, "IN".toList, "NS".toList, r.nameserver.chars] := by
  obtain ⟨hf, -, ht⟩ : r.zone.wf = true ∧ r.ttl ≤ U32MAX ∧ r.nameserver.wf = true := by
    simpa [NS.wf, Bool.and_eq_true, and_assoc] using h
  unfold NS.display
  rw [splitWs_tok_sep wsTab (fqdn_ne_nil hf) (fqdn_not_ws hf),
    splitWs_tok_sep wsTab (natToChars_ne_nil _) (natToChars_not_ws _),
    splitWs_tok_sep wsTab (by decide) (by decide),
    splitWs_tok_sep wsTab (by decide) (by decide),
    splitWs_token _ _ (fqdn_ne_nil ht) (fqdn_not_ws ht)]

theorem NS.roundtrip_ns {r : NS} (h : r.wf = true) : NS.fromStr r.display = .ok r := by
  obtain ⟨hf, httl, ht⟩ : r.zone.wf = true ∧ r.ttl ≤ U32MAX ∧ r.nameserver.wf = true := by
    simpa [NS.wf, Bool.and_eq_true, and_assoc] using h
  unfold NS.fromStr
  rw [NS.split_display_ns h]
  simp [checkRecordType, checkClass, FQDN.fromStr_chars hf,
    parseUint_natToChars httl, FQDN.fromStr_chars ht]

theorem SOA.split_display_soa {r : SOA} (h : r.wf = true) :
    splitWs rustIsWhitespace r.display =
      [r.zone.chars, natToChars r.ttl, "IN".toList, "SOA".toList, r.nameserver.chars,
        r.admin.chars, natToChars r.settings.serial, natToChars r.settings.refresh,
        natToChars r.settings.retry, natToChars r.settings.expire,
        natToChars r.settings.minimum] := by
  obtain ⟨hz, -, hns, had, -⟩ :
      r.zone.wf = true ∧ r.ttl ≤ U32MAX ∧ r.nameserver.wf = true ∧ r.admin.wf = true ∧
        (r.settings.serial ≤ U32MAX ∧ r.settings.refresh ≤ U32MAX ∧
          r.settings.retry ≤ U32MAX ∧ r.settings.expire ≤ U32MAX ∧
          r.settings.minimum ≤ U32MAX) := by
    simpa [SOA.wf, Bool.and_eq_true, and_assoc] using h
  unfold SOA.display SoaSettings.display
  rw [splitWs_tok_sep wsTab (fqdn_ne_nil hz) (fqdn_not_ws hz),
    splitWs_tok_sep wsTab (natToChars_ne_nil _) (natToChars_not_ws _),
    splitWs_tok_sep wsTab (by decide) (by decide),
    splitWs_tok_sep wsTab (by decide) (by decide),
    splitWs_tok_sep wsSp (fqdn_ne_nil hns) (fqdn_not_ws hns),
    splitWs_tok_sep wsSp (fqdn_ne_nil had) (fqdn_not_ws had),
    splitWs_tok_sep wsSp (natToChars_ne_nil _) (natToChars_not_ws _),
    splitWs_tok_sep wsSp (natToChars_ne_nil _) (natToChars_not_ws _),
    splitWs_tok_sep wsSp (natToChars_ne_nil _) (natToChars_not_ws _),
    splitWs_tok_sep wsSp (natToChars_ne_nil _) (natToChars_not_ws _),
    splitWs_token _ _ (natToChars_ne_nil _) (natToChars_not_ws _)]

theorem SOA.roundtrip_soa {r : SOA} (h : r.wf = true) : SOA.fromStr r.display = .ok r := by
  obtain ⟨hz, httl, hns, had, hse, hrf, hrt, hex, hmi⟩ :
      r.zone.wf = true ∧ r.ttl ≤ U32MAX ∧ r.nameserver.wf = true ∧ r.admin.wf = true ∧
        r.settings.serial ≤ U32MAX ∧ r.settings.refresh ≤ U32MAX ∧
        r.settings.retry ≤ U32MAX ∧ r.settings.expire ≤ U32MAX ∧
        r.settings.minimum ≤ U32MAX := by
    simpa [SOA.wf, Bool.and_eq_true, and_assoc] using h
  unfold SOA.fromStr
  rw [SOA.split_display_soa h]
  simp [checkRecordType, checkClass, FQDN.fromStr_chars hz, FQDN.fromStr_chars hns,
    FQDN.fromStr_chars had, parseUint_natToChars httl, parseUint_natToChars hse,
    parseUint_natToChars hrf, parseUint_natToChars hrt, parseUint_natToChars hex,
    parseUint_natToChars hmi]

theorem NSEC3PARAM.split_display_n3p {r : NSEC3PARAM} (h : r.wf = true) :
    splitWs rustIsWhitespace r.display =
      [r.zone.chars, natToChars r.ttl, "IN".toList, "NSEC3PARAM".toList,
        natToChars r.hash_alg, natToChars r.flags, natToChars r.iterations, ['-']] := by
  obtain ⟨hz, -, -, -, -⟩ :
      r.zone.wf = true ∧ r.ttl ≤ U32MAX ∧ r.hash_alg ≤ U8MAX ∧ r.flags ≤ U8MAX ∧
        r.iterations ≤ U16MAX := by
    simpa [NSEC3PARAM.wf, Bool.and_eq_true, and_assoc] using h
  unfold NSEC3PARAM.display
  rw [splitWs_tok_sep wsTab (fqdn_ne_nil hz) (fqdn_not_ws hz),
    splitWs_tok_sep wsTab (natToChars_ne_nil _) (natToChars_not_ws _),
    splitWs_tok_sep wsTab (by decide) (by decide),
    splitWs_tok_sep wsTab (by decide) (by decide),
    splitWs_tok_sep wsSp (natToChars_ne_nil _) (natToChars_not_ws _),
    splitWs_tok_sep wsSp (natToChars_ne_nil _) (natToChars_not_ws _),
    splitWs_tok_sep wsSp (natToChars_ne_nil _) (natToChars_not_ws _),
    splitWs_token _ _ (by decide) (by decide)]

theorem NSEC3PARAM.roundtrip_n3p {r : NSEC3PARAM} (h : r.wf = true) :
    NSEC3PARAM.fromStr r.display = .ok r := by
  obtain ⟨hz, httl, hha, hfl, hit⟩ :
      r.zone.wf = true ∧ r.ttl ≤ U32MAX ∧ r.hash_alg ≤ U8MAX ∧ r.flags ≤ U8MAX ∧
        r.iterations ≤ U16MAX := by
    simpa [NSEC3PARAM.wf, Bool.and_eq_true, and_assoc] using h
  unfold NSEC3PARAM.fromStr
  rw [NSEC3PARAM.split_display_n3p h]
  simp [checkRecordType, checkClass, FQDN.fromStr_chars hz, parseUint_natToChars httl,
    parseUint_natToChars hha, parseUint_natToChars hfl, parseUint_natToChars hit]

end DnsTest

namespace DnsTest

theorem map_asciiLower_natToChars (n : Nat) :
    (natToChars n).map asciiLower = natToChars n := by
  suffices H : ∀ l : List Char, (∀ c ∈ l, asciiLower c = c) → l.map asciiLower = l by
    exact H _ (fun c hc => asciiLower_digit (natToChars_digits n c hc))
  intro l
  induction l with
  | nil => intro _; rfl
  | cons c cs ih =>
    intro hl
    rw [List.map_cons, hl c (by simp), ih (fun d hd => hl d (by simp [hd]))]

theorem unknown_asName_shape (code : Nat) :
    RecordType.asName (.Unknown code) = 't' :: 'y' :: 'p' :: 'e' :: natToChars code := rfl

theorem RecordType.fromStr_asName : ∀ {t : RecordType}, t.wf = true →
    RecordType.fromStr t.asName = .ok t := by
  intro t h
  cases t
  case Unknown code =>
    have hcode : code ≤ U16MAX := by
      have h2 : code < 65536 := by simpa [RecordType.wf] using h
      unfold U16MAX
      omega
    rw [unknown_asName_shape, RecordType.fromStr]
    rw [if_neg (by simp), if_neg (by simp), if_neg (by simp), if_neg (by simp),
      if_neg (by simp), if_neg (by simp), if_neg (by simp), if_neg (by simp),
      if_neg (by simp), if_neg (by simp), if_neg (by simp), if_neg (by simp),
      if_neg (by simp), if_neg (by simp)]
    have hmap : ('t' :: 'y' :: 'p' :: 'e' :: natToChars code).map asciiLower =
        't' :: 'y' :: 'p' :: 'e' :: natToChars code := by
      simp [map_asciiLower_natToChars]
      decide
    rw [hmap]
    simp [stripLowerType, parseUint_natToChars hcode]
  all_goals decide

end DnsTest

namespace DnsTest

theorem rt_asName_ne_nil (t : RecordType) : t.asName ≠ [] := by
  cases t
  case Unknown code => simp [unknown_asName_shape]
  all_goals decide

theorem rt_asName_not_ws (t : RecordType) :
    ∀ c ∈ t.asName, rustIsWhitespace c = false := by
  cases t
  case Unknown code =>
    intro c hc
    rw [unknown_asName_shape] at hc
    simp only [List.mem_cons] at hc
    rcases hc with rfl | rfl | rfl | rfl | hmem
    · decide
    · decide
    · decide
    · decide
    · exact natToChars_not_ws _ c hmem
  all_goals decide

theorem splitWs_token_displayRecordTypes {t : List Char} (hne : t ≠ [])
    (ht : ∀ c ∈ t, rustIsWhitespace c = false) (rts : List RecordType) :
    splitWs rustIsWhitespace (t ++ displayRecordTypes rts) =
      t :: rts.map RecordType.asName := by
  induction rts generalizing t with
  | nil =>
    simp only [displayRecordTypes, List.append_nil, List.map_nil]
    rw [splitWs_token _ t hne ht]
  | cons rt rest ih =>
    rw [displayRecordTypes, splitWs_tok_sep wsSp hne ht,
      ih (rt_asName_ne_nil rt) (rt_asName_not_ws rt), List.map_cons]

theorem parseRecordTypes_map {rts : List RecordType} (h : rts.all RecordType.wf = true) :
    parseRecordTypes (rts.map RecordType.asName) = .ok rts := by
  induction rts with
  | nil => rfl
  | cons rt rest ih =>
    simp only [List.all_cons, Bool.and_eq_true] at h
    simp only [List.map_cons, parseRecordTypes]
    rw [RecordType.fromStr_asName h.1]
    simp [ih h.2]

theorem NSEC.split_display_nsec {r : NSEC} (h : r.wf = true) :
    splitWs rustIsWhitespace r.display =
      r.fqdn.chars :: natToChars r.ttl :: "IN".toList :: "NSEC".toList ::
        r.next_domain.chars :: r.record_types.map RecordType.asName := by
  obtain ⟨hf, -, hnd, -⟩ :
      r.fqdn.wf = true ∧ r.ttl ≤ U32MAX ∧ r.next_domain.wf = true ∧
        r.record_types.all RecordType.wf = true := by
    simpa [NSEC.wf, Bool.and_eq_true, and_assoc] using h
  unfold NSEC.display
  rw [splitWs_tok_sep wsTab (fqdn_ne_nil hf) (fqdn_not_ws hf),
    splitWs_tok_sep wsTab (natToChars_ne_nil _) (natToChars_not_ws _),
    splitWs_tok_sep wsTab (by decide) (by decide),
    splitWs_tok_sep wsTab (by decide) (by decide),
    splitWs_token_displayRecordTypes (fqdn_ne_nil hnd) (fqdn_not_ws hnd)]

theorem NSEC.roundtrip_nsec {r : NSEC} (h : r.wf = true) : NSEC.fromStr r.display = .ok r := by
  obtain ⟨hf, httl, hnd, hrt⟩ :
      r.fqdn.wf = true ∧ r.ttl ≤ U32MAX ∧ r.next_domain.wf = true ∧
        r.record_types.all RecordType.wf = true := by
    simpa [NSEC.wf, Bool.and_eq_true, and_assoc] using h
  unfold NSEC.fromStr
  rw [NSEC.split_display_nsec h]
  simp [checkRecordType, checkClass, FQDN.fromStr_chars hf, FQDN.fromStr_chars hnd,
    parseUint_natToChars httl, parseRecordTypes_map hrt]

theorem NSEC3.split_display_n3 {r : NSEC3} (h : r.wf = true) :
    splitWs rustIsWhitespace r.display =
      r.fqdn.chars :: natToChars r.ttl :: "IN".toList :: "NSEC3".toList ::
        natToChars r.hash_alg :: natToChars r.flags :: natToChars r.iterations ::
        r.salt :: r.next_hashed_owner_name :: r.record_types.map RecordType.asName := by
  obtain ⟨hf, -, -, -, -, hsalt, hnho, -⟩ :
      r.fqdn.wf = true ∧ r.ttl ≤ U32MAX ∧ r.hash_alg ≤ U8MAX ∧ r.flags ≤ U8MAX ∧
        r.iterations ≤ U16MAX ∧ tokenOk r.salt = true ∧
        tokenOk r.next_hashed_owner_name = true ∧
        r.record_types.all RecordType.wf = true := by
    simpa [NSEC3.wf, Bool.and_eq_true, and_assoc] using h
  obtain ⟨hsne, hsws⟩ := tokenOk_iff.mp hsalt
  obtain ⟨hnne, hnws⟩ := tokenOk_iff.mp hnho
  unfold NSEC3.display
  rw [splitWs_tok_sep wsTab (fqdn_ne_nil hf) (fqdn_not_ws hf),
    splitWs_tok_sep wsTab (natToChars_ne_nil _) (natToChars_not_ws _),
    splitWs_tok_sep wsTab (by decide) (by decide),
    splitWs_tok_sep wsTab (by decide) (by decide),
    splitWs_tok_sep wsSp (natToChars_ne_nil _) (natToChars_not_ws _),
    splitWs_tok_sep wsSp (natToChars_ne_nil _) (natToChars_not_ws _),
    splitWs_tok_sep wsSp (natToChars_ne_nil _) (natToChars_not_ws _),
    splitWs_tok_sep wsSp hsne hsws, splitWs_sep_cons _ wsSp,
    splitWs_token_displayRecordTypes hnne hnws]

theorem NSEC3.roundtrip_n3 {r : NSEC3} (h : r.wf = true) : NSEC3.fromStr r.display = .ok r := by
  obtain ⟨hf, httl, hha, hfl, hit, hsalt, hnho, hrt⟩ :
      r.fqdn.wf = true ∧ r.ttl ≤ U32MAX ∧ r.hash_alg ≤ U8MAX ∧ r.flags ≤ U8MAX ∧
        r.iterations ≤ U16MAX ∧ tokenOk r.salt = true ∧
        tokenOk r.next_hashed_owner_name = true ∧
        r.record_types.all RecordType.wf = true := by
    simpa [NSEC3.wf, Bool.and_eq_true, and_assoc] using h
  unfold NSEC3.fromStr
  rw [NSEC3.split_display_n3 h]
  simp [checkRecordType, checkClass, FQDN.fromStr_chars hf, parseUint_natToChars httl,
    parseUint_natToChars hha, parseUint_natToChars hfl, parseUint_natToChars hit,
    parseRecordTypes_map hrt]

end DnsTest

namespace DnsTest

theorem pkOk_not_ws {s : List Char} (h : pkOk s = true) :
    ∀ c ∈ s, rustIsWhitespace c = false := by
  intro c hc
  have := List.all_eq_true.mp h c hc
  simp only [Bool.and_eq_true, Bool.not_eq_eq_eq_not, Bool.not_true, bne_iff_ne] at this
  exact this.1

theorem pkOk_ne_semi {s : List Char} (h : pkOk s = true) : ∀ c ∈ s, c ≠ ';' := by
  intro c hc heq
  have := List.all_eq_true.mp h c hc
  simp only [Bool.and_eq_true, bne_iff_ne] at this
  exact this.2 (by rw [heq]; rfl)

theorem writeSplitLong_chars {f : List Char} :
    ∀ c ∈ writeSplitLong f, c = ' ' ∨ c ∈ f := by
  suffices H : ∀ (g : List Char) (i : Nat), ∀ c ∈ writeSplitLongAux g i, c = ' ' ∨ c ∈ g by
    exact H f 0
  intro g
  induction g with
  | nil => intro i c hc; cases hc
  | cons d g ih =>
    intro i c hc
    rw [writeSplitLongAux] at hc
    by_cases hi : i % 56 = 0
    · rw [if_pos hi] at hc
      simp only [List.cons_append, List.nil_append, List.mem_cons] at hc
      rcases hc with rfl | rfl | hc
      · exact Or.inl rfl
      · exact Or.inr (by simp)
      · rcases ih (i + 1) c hc with h | h
        · exact Or.inl h
        · exact Or.inr (by simp [h])
    · rw [if_neg hi] at hc
      simp only [List.cons_append, List.nil_append, List.mem_cons] at hc
      rcases hc with rfl | hc
      · exact Or.inr (by simp)
      · rcases ih (i + 1) c hc with h | h
        · exact Or.inl h
        · exact Or.inr (by simp [h])

theorem DNSKEY.display_no_semi {r : DNSKEY} (h : r.wf = true) :
    ∀ c ∈ r.display, c ≠ ';' := by
  obtain ⟨hz, -, -, -, -, hpk⟩ :
      r.zone.wf = true ∧ r.ttl ≤ U32MAX ∧ r.rdata.flags ≤ U16MAX ∧
        r.rdata.protocol ≤ U8MAX ∧ r.rdata.algorithm ≤ U8MAX ∧
        pkOk r.rdata.public_key = true := by
    simpa [DNSKEY.wf, Bool.and_eq_true, and_assoc] using h
  have hdig : ∀ n : Nat, ∀ c ∈ natToChars n, c ≠ ';' := fun n c hc =>
    isDigitChar_ne_semi (natToChars_digits n c hc)
  have hfq : ∀ c ∈ r.zone.chars, c ≠ ';' := fun c hc =>
    fqdnChar_ne_semi (List.all_eq_true.mp (fqdn_wf_iff.mp hz).2.2 c hc)
  unfold DNSKEY.display
  refine List.forall_mem_append.mpr ⟨hfq, List.forall_mem_cons.mpr ⟨by decide, ?_⟩⟩
  refine List.forall_mem_append.mpr ⟨hdig _, List.forall_mem_cons.mpr ⟨by decide, ?_⟩⟩
  refine List.forall_mem_append.mpr ⟨by decide, List.forall_mem_cons.mpr ⟨by decide, ?_⟩⟩
  refine List.forall_mem_append.mpr ⟨by decide, List.forall_mem_cons.mpr ⟨by decide, ?_⟩⟩
  refine List.forall_mem_append.mpr ⟨hdig _, List.forall_mem_cons.mpr ⟨by decide, ?_⟩⟩
  refine List.forall_mem_append.mpr ⟨hdig _, List.forall_mem_cons.mpr ⟨by decide, ?_⟩⟩
  refine List.forall_mem_append.mpr ⟨hdig _, ?_⟩
  intro c hc
  rcases writeSplitLong_chars c hc with rfl | hm
  · decide
  · exact pkOk_ne_semi hpk c hm

theorem DNSKEY.split_display_dnskey {r : DNSKEY} (h : r.wf = true) :
    splitWs rustIsWhitespace r.display =
      r.zone.chars :: natToChars r.ttl :: "IN".toList :: "DNSKEY".toList ::
        natToChars r.rdata.flags :: natToChars r.rdata.protocol ::
        natToChars r.rdata.algorithm ::
        splitWs rustIsWhitespace (writeSplitLong r.rdata.public_key) := by
  obtain ⟨hz, -, -, -, -, -⟩ :
      r.zone.wf = true ∧ r.ttl ≤ U32MAX ∧ r.rdata.flags ≤ U16MAX ∧
        r.rdata.protocol ≤ U8MAX ∧ r.rdata.algorithm ≤ U8MAX ∧
        pkOk r.rdata.public_key = true := by
    simpa [DNSKEY.wf, Bool.and_eq_true, and_assoc] using h
  unfold DNSKEY.display
  rw [splitWs_tok_sep wsTab (fqdn_ne_nil hz) (fqdn_not_ws hz),
    splitWs_tok_sep wsTab (natToChars_ne_nil _) (natToChars_not_ws _),
    splitWs_tok_sep wsTab (by decide) (by decide),
    splitWs_tok_sep wsTab (by decide) (by decide),
    splitWs_tok_sep wsSp (natToChars_ne_nil _) (natToChars_not_ws _),
    splitWs_tok_sep wsSp (natToChars_ne_nil _) (natToChars_not_ws _),
    splitWs_append_writeSplitLong wsSp,
    splitWs_token _ _ (natToChars_ne_nil _) (natToChars_not_ws _)]
  rfl

theorem DNSKEY.roundtrip_dnskey {r : DNSKEY} (h : r.wf = true) :
    DNSKEY.fromStr r.display = .ok r := by
  obtain ⟨hz, httl, hfl, hpr, hal, hpk⟩ :
      r.zone.wf = true ∧ r.ttl ≤ U32MAX ∧ r.rdata.flags ≤ U16MAX ∧
        r.rdata.protocol ≤ U8MAX ∧ r.rdata.algorithm ≤ U8MAX ∧
        pkOk r.rdata.public_key = true := by
    simpa [DNSKEY.wf, Bool.and_eq_true, and_assoc] using h
  unfold DNSKEY.fromStr
  rw [rsplitSpSemi_none (DNSKEY.display_no_semi h)]
  dsimp only
  rw [DNSKEY.split_display_dnskey h]
  simp only [checkRecordType, checkClass, if_pos rfl, RRes.bind_ok,
    FQDN.fromStr_chars hz, parseUint_natToChars httl, parseUint_natToChars hfl,
    parseUint_natToChars hpr, parseUint_natToChars hal, RRes.ofOpt_some]
  rw [flatten_splitWs_writeSplitLong wsSp (pkOk_not_ws hpk)]
  simp

theorem chunkOk_not_ws {s : List Char} (h : chunkOk s = true) :
    ∀ c ∈ s, rustIsWhitespace c = false := chunkOk_iff.mp h

theorem DS.split_display_ds {r : DS} (h : r.wf = true) :
    splitWs rustIsWhitespace r.display =
      r.zone.chars :: natToChars r.ttl :: "IN".toList :: "DS".toList ::
        natToChars r.key_tag :: natToChars r.algorithm :: natToChars r.digest_type ::
        splitWs rustIsWhitespace (writeSplitLong r.digest) := by
  obtain ⟨hz, -, -, -, -, -⟩ :
      r.zone.wf = true ∧ r.ttl ≤ U32MAX ∧ r.key_tag ≤ U16MAX ∧ r.algorithm ≤ U8MAX ∧
        r.digest_type ≤ U8MAX ∧ chunkOk r.digest = true := by
    simpa [DS.wf, Bool.and_eq_true, and_assoc] using h
  unfold DS.display
  rw [splitWs_tok_sep wsTab (fqdn_ne_nil hz) (fqdn_not_ws hz),
    splitWs_tok_sep wsTab (natToChars_ne_nil _) (natToChars_not_ws _),
    splitWs_tok_sep wsTab (by decide) (by decide),
    splitWs_tok_sep wsTab (by decide) (by decide),
    splitWs_tok_sep wsSp (natToChars_ne_nil _) (natToChars_not_ws _),
    splitWs_tok_sep wsSp (natToChars_ne_nil _) (natToChars_not_ws _),
    splitWs_append_writeSplitLong wsSp,
    splitWs_token _ _ (natToChars_ne_nil _) (natToChars_not_ws _)]
  rfl

theorem DS.roundtrip_ds {r : DS} (h : r.wf = true) : DS.fromStr r.display = .ok r := by
  obtain ⟨hz, httl, hkt, hal, hdt, hdg⟩ :
      r.zone.wf = true ∧ r.ttl ≤ U32MAX ∧ r.key_tag ≤ U16MAX ∧ r.algorithm ≤ U8MAX ∧
        r.digest_type ≤ U8MAX ∧ chunkOk r.digest = true := by
    simpa [DS.wf, Bool.and_eq_true, and_assoc] using h
  unfold DS.fromStr
  rw [DS.split_display_ds h]
  simp only [checkRecordType, checkClass, if_pos rfl, RRes.bind_ok,
    FQDN.fromStr_chars hz, parseUint_natToChars httl, parseUint_natToChars hkt,
    parseUint_natToChars hal, parseUint_natToChars hdt, RRes.ofOpt_some]
  rw [flatten_splitWs_writeSplitLong wsSp (chunkOk_not_ws hdg)]
  simp

theorem RRSIG.split_display_rrsig {r : RRSIG} (h : r.wf = true) :
    splitWs rustIsWhitespace r.display =
      r.fqdn.chars :: natToChars r.ttl :: "IN".toList :: "RRSIG".toList ::
        r.type_covered.asName :: natToChars r.algorithm :: natToChars r.labels ::
        natToChars r.original_ttl :: natToChars r.signature_expiration ::
        natToChars r.signature_inception :: natToChars r.key_tag ::
        r.signer_name.chars :: splitWs rustIsWhitespace (writeSplitLong r.signature) := by
  obtain ⟨hf, -, -, -, -, -, -, -, -, hsn, -⟩ :
      r.fqdn.wf = true ∧ r.ttl ≤ U32MAX ∧ r.type_covered.wf = true ∧
        r.algorithm ≤ U8MAX ∧ r.labels ≤ U8MAX ∧ r.original_ttl ≤ U32MAX ∧
        r.signature_expiration ≤ U64MAX ∧ r.signature_inception ≤ U64MAX ∧
        r.key_tag ≤ U16MAX ∧ r.signer_name.wf = true ∧ chunkOk r.signature = true := by
    simpa [RRSIG.wf, Bool.and_eq_true, and_assoc] using h
  unfold RRSIG.display
  rw [splitWs_tok_sep wsTab (fqdn_ne_nil hf) (fqdn_not_ws hf),
    splitWs_tok_sep wsTab (natToChars_ne_nil _) (natToChars_not_ws _),
    splitWs_tok_sep wsTab (by decide) (by decide),
    splitWs_tok_sep wsTab (by decide) (by decide),
    splitWs_tok_sep wsSp (rt_asName_ne_nil _) (rt_asName_not_ws _),
    splitWs_tok_sep wsSp (natToChars_ne_nil _) (natToChars_not_ws _),
    splitWs_tok_sep wsSp (natToChars_ne_nil _) (natToChars_not_ws _),
    splitWs_tok_sep wsSp (natToChars_ne_nil _) (natToChars_not_ws _),
    splitWs_tok_sep wsSp (natToChars_ne_nil _) (natToChars_not_ws _),
    splitWs_tok_sep wsSp (natToChars_ne_nil _) (natToChars_not_ws _),
    splitWs_tok_sep wsSp (natToChars_ne_nil _) (natToChars_not_ws _),
    splitWs_append_writeSplitLong wsSp,
    splitWs_token _ _ (fqdn_ne_nil hsn) (fqdn_not_ws hsn)]
  rfl

theorem RRSIG.roundtrip_rrsig {r : RRSIG} (h : r.wf = true) : RRSIG.fromStr r.display = .ok r := by
  obtain ⟨hf, httl, htc, hal, hlb, hot, hse, hsi, hkt, hsn, hsg⟩ :
      r.fqdn.wf = true ∧ r.ttl ≤ U32MAX ∧ r.type_covered.wf = true ∧
        r.algorithm ≤ U8MAX ∧ r.labels ≤ U8MAX ∧ r.original_ttl ≤ U32MAX ∧
        r.signature_expiration ≤ U64MAX ∧ r.signature_inception ≤ U64MAX ∧
        r.key_tag ≤ U16MAX ∧ r.signer_name.wf = true ∧ chunkOk r.signature = true := by
    simpa [RRSIG.wf, Bool.and_eq_true, and_assoc] using h
  unfold RRSIG.fromStr
  rw [RRSIG.split_display_rrsig h]
  simp only [checkRecordType, checkClass, if_pos rfl, RRes.bind_ok,
    FQDN.fromStr_chars hf, FQDN.fromStr_chars hsn, RecordType.fromStr_asName htc,
    parseUint_natToChars httl, parseUint_natToChars hal, parseUint_natToChars hlb,
    parseUint_natToChars hot, parseUint_natToChars hse, parseUint_natToChars hsi,
    parseUint_natToChars hkt, RRes.ofOpt_some]
  rw [flatten_splitWs_writeSplitLong wsSp (chunkOk_not_ws hsg)]
  simp

end DnsTest

namespace DnsTest

theorem CAA.split_display_caa {r : CAA} (h : r.wf = true) :
    splitWs rustIsWhitespace r.display =
      [r.zone.chars, natToChars r.ttl, "IN".toList, "CAA".toList, natToChars r.flags,
        r.tag, if r.value = [] then ['"', '"'] else r.value] := by
  obtain ⟨hz, -, -, htag, hval⟩ :
      r.zone.wf = true ∧ r.ttl ≤ U32MAX ∧ r.flags ≤ U8MAX ∧ tokenOk r.tag = true ∧
        (r.value.isEmpty || (tokenOk r.value && r.value ≠ ['"', '"'])) = true := by
    simpa [CAA.wf, Bool.and_eq_true, and_assoc] using h
  obtain ⟨htne, htws⟩ := tokenOk_iff.mp htag
  have hlast : (if r.value = [] then ['"', '"'] else r.value) ≠ [] ∧
      ∀ c ∈ (if r.value = [] then ['"', '"'] else r.value), rustIsWhitespace c = false := by
    by_cases hv : r.value = []
    · rw [if_pos hv]
      exact ⟨by decide, by decide⟩
    · rw [if_neg hv]
      have hne : r.value.isEmpty = false := by
        simpa [List.isEmpty_iff] using hv
      rw [hne, Bool.false_or, Bool.and_eq_true] at hval
      exact tokenOk_iff.mp hval.1
  unfold CAA.display
  rw [splitWs_tok_sep wsTab (fqdn_ne_nil hz) (fqdn_not_ws hz),
    splitWs_tok_sep wsTab (natToChars_ne_nil _) (natToChars_not_ws _),
    splitWs_tok_sep wsTab (by decide) (by decide),
    splitWs_tok_sep wsTab (by decide) (by decide),
    splitWs_tok_sep wsSp (natToChars_ne_nil _) (natToChars_not_ws _),
    splitWs_tok_sep wsSp htne htws,
    splitWs_token _ _ hlast.1 hlast.2]

theorem CAA.roundtrip_caa {r : CAA} (h : r.wf = true) : CAA.fromStr r.display = .ok r := by
  obtain ⟨hz, httl, hfl, htag, hval⟩ :
      r.zone.wf = true ∧ r.ttl ≤ U32MAX ∧ r.flags ≤ U8MAX ∧ tokenOk r.tag = true ∧
        (r.value.isEmpty || (tokenOk r.value && r.value ≠ ['"', '"'])) = true := by
    simpa [CAA.wf, Bool.and_eq_true, and_assoc] using h
  unfold CAA.fromStr
  rw [CAA.split_display_caa h]
  have hback : (if (if r.value = [] then ['"', '"'] else r.value) = ['"', '"'] then
      ([] : List Char) else (if r.value = [] then ['"', '"'] else r.value)) = r.value := by
    by_cases hv : r.value = []
    · rw [if_pos hv, if_pos rfl, hv]
    · have hne : r.value.isEmpty = false := by
        simpa [List.isEmpty_iff] using hv
      rw [hne, Bool.false_or, Bool.and_eq_true] at hval
      have : r.value ≠ ['"', '"'] := by simpa using hval.2
      rw [if_neg hv, if_neg this]
  simp only [checkRecordType, checkClass, if_pos rfl, RRes.bind_ok,
    FQDN.fromStr_chars hz, parseUint_natToChars httl, parseUint_natToChars hfl,
    RRes.ofOpt_some, hback]
  simp

theorem natToChars_not_aws (n : Nat) : ∀ c ∈ natToChars n, isAsciiWs c = false :=
  fun c hc => not_ws_not_ascii (natToChars_not_ws n c hc)

theorem fqdn_not_aws {f : FQDN} (h : f.wf = true) : ∀ c ∈ f.chars, isAsciiWs c = false :=
  fun c hc => not_ws_not_ascii (fqdn_not_ws h c hc)

theorem hexPair_ne_nil (b : Nat) : hexPair b ≠ [] := by simp [hexPair]

theorem hexPair_not_aws (b : Nat) : ∀ c ∈ hexPair b, isAsciiWs c = false := by
  intro c hc
  simp only [hexPair, List.mem_cons, List.mem_singleton, List.not_mem_nil, or_false] at hc
  rcases hc with rfl | rfl <;> exact not_ws_not_ascii (hexDigitChar_not_ws _)

theorem splitWs_token_bytesDisplay {t : List Char} (hne : t ≠ [])
    (ht : ∀ c ∈ t, isAsciiWs c = false) (l : List Nat) :
    splitWs isAsciiWs (t ++ bytesDisplay l) = t :: l.map hexPair := by
  induction l generalizing t with
  | nil =>
    simp only [bytesDisplay, List.append_nil, List.map_nil]
    rw [splitWs_token _ t hne ht]
  | cons b rest ih =>
    rw [bytesDisplay, splitWs_tok_sep awsSp hne ht, ih (hexPair_ne_nil b) (hexPair_not_aws b),
      List.map_cons]

theorem hexColumns_map {l : List Nat} (h : l.all (· < 256) = true) :
    hexColumns (l.map hexPair) = some l := by
  induction l with
  | nil => rfl
  | cons b rest ih =>
    simp only [List.all_cons, Bool.and_eq_true, decide_eq_true_eq] at h
    simp [hexColumns, hexDecodeCol_hexPair h.1, ih h.2]

theorem UnknownRdata.split_display_unk {r : UnknownRdata} (h : r.wf = true) :
    splitWs isAsciiWs r.display =
      r.zone.chars :: natToChars r.ttl :: "IN".toList ::
        ("TYPE".toList ++ natToChars r.type) :: ['\\', '#'] ::
        natToChars r.rdata.length :: r.rdata.map hexPair := by
  obtain ⟨hz, -, -, -, -⟩ :
      r.zone.wf = true ∧ r.ttl ≤ U32MAX ∧ r.type ≤ U16MAX ∧ r.rdata.length ≤ U64MAX ∧
        r.rdata.all (· < 256) = true := by
    simpa [UnknownRdata.wf, Bool.and_eq_true, and_assoc] using h
  have htype : ("TYPE".toList ++ natToChars r.type) ≠ [] ∧
      ∀ c ∈ "TYPE".toList ++ natToChars r.type, isAsciiWs c = false := by
    constructor
    · simp
    · exact List.forall_mem_append.mpr ⟨by decide, natToChars_not_aws _⟩
  unfold UnknownRdata.display
  rw [splitWs_tok_sep awsTab (fqdn_ne_nil hz) (fqdn_not_aws hz),
    splitWs_tok_sep awsTab (natToChars_ne_nil _) (natToChars_not_aws _),
    splitWs_tok_sep awsTab (by decide) (by decide),
    splitWs_tok_sep awsTab htype.1 htype.2,
    show ('\\' :: '#' :: ' ' :: (natToChars r.rdata.length ++ bytesDisplay r.rdata)) =
      ['\\', '#'] ++ ' ' :: (natToChars r.rdata.length ++ bytesDisplay r.rdata) from rfl,
    splitWs_tok_sep awsSp (by decide) (by decide),
    splitWs_token_bytesDisplay (natToChars_ne_nil _) (natToChars_not_aws _)]

theorem UnknownRdata.roundtrip_unk {r : UnknownRdata} (h : r.wf = true) :
    UnknownRdata.fromStr r.display = .ok r := by
  obtain ⟨hz, httl, hty, hlen, hbytes⟩ :
      r.zone.wf = true ∧ r.ttl ≤ U32MAX ∧ r.type ≤ U16MAX ∧ r.rdata.length ≤ U64MAX ∧
        r.rdata.all (· < 256) = true := by
    simpa [UnknownRdata.wf, Bool.and_eq_true, and_assoc] using h
  unfold UnknownRdata.fromStr
  rw [UnknownRdata.split_display_unk h]
  rw [show ("TYPE".toList ++ natToChars r.type) =
    'T' :: 'Y' :: 'P' :: 'E' :: natToChars r.type from rfl]
  simp only [checkClass, if_pos rfl, RRes.bind_ok, stripTYPE,
    parseUint_natToChars hty, parseUint_natToChars httl, parseUint_natToChars hlen,
    RRes.ofOpt_some, hexColumns_map hbytes, FQDN.fromStr_chars hz]
  simp

end DnsTest

namespace DnsTest

/-! TXT machine stepping lemmas. -/

theorem txtRun_ws_sp (rest cur : List Char) (acc : List (List Char)) :
    txtRun .whitespace (' ' :: rest) cur acc = txtRun .whitespace rest cur acc := by
  simp [txtRun, awsSp]

theorem txtRun_open_quote (rest cur : List Char) (acc : List (List Char)) :
    txtRun .whitespace ('"' :: rest) cur acc = txtRun .quoted rest cur acc := by
  simp [txtRun, isAsciiWs]

theorem txtRun_close_quote (rest cur : List Char) (acc : List (List Char)) :
    txtRun .quoted ('"' :: rest) cur acc = txtRun .whitespace rest [] (acc ++ [cur]) := by
  simp [txtRun]

theorem txtRun_quoted_char {c : Char} (h80 : c.toNat < 0x80) (hq : c ≠ '"')
    (hat : c ≠ '@') (hbs : c ≠ '\\') (rest cur : List Char) (acc : List (List Char)) :
    txtRun .quoted (c :: rest) cur acc = txtRun .quoted rest (cur ++ [c]) acc := by
  rw [txtRun, if_neg (by omega)]
  simp only [hq, hat, hbs, if_false]

theorem txtStringOk_char {s : List Char} (h : txtStringOk s = true) {c : Char} (hc : c ∈ s) :
    c.toNat < 0x80 ∧ c ≠ '"' ∧ c ≠ '@' ∧ c ≠ '\\' := by
  have := List.all_eq_true.mp h c hc
  simp only [Bool.and_eq_true, decide_eq_true_eq, bne_iff_ne, ne_eq] at this
  obtain ⟨⟨⟨h1, h2⟩, h3⟩, h4⟩ := this
  refine ⟨h1, ?_, ?_, ?_⟩ <;> intro heq <;> subst heq <;> simp at h2 h3 h4

theorem txtRun_quoted_append {s : List Char} (hs : txtStringOk s = true) :
    ∀ (rest cur : List Char) (acc : List (List Char)),
      txtRun .quoted (s ++ '"' :: rest) cur acc =
        txtRun .whitespace rest [] (acc ++ [cur ++ s]) := by
  induction s with
  | nil =>
    intro rest cur acc
    simp [txtRun_close_quote]
  | cons c s ih =>
    intro rest cur acc
    obtain ⟨h80, hq, hat, hbs⟩ := txtStringOk_char hs (List.mem_cons_self c s)
    have hs' : txtStringOk s = true := by
      simp only [txtStringOk, List.all_cons, Bool.and_eq_true] at hs
      exact hs.2
    rw [List.cons_append, txtRun_quoted_char h80 hq hat hbs, ih hs']
    simp

theorem txtRun_rest {strs : List (List Char)} (h : strs.all txtStringOk = true) :
    ∀ acc, txtRun .whitespace (txtStringsRest strs) [] acc = .ok (acc ++ strs) := by
  induction strs with
  | nil => intro acc; simp [txtStringsRest, txtRun]
  | cons s rest ih =>
    intro acc
    simp only [List.all_cons, Bool.and_eq_true] at h
    rw [txtStringsRest, txtRun_ws_sp, txtRun_open_quote, txtRun_quoted_append h.1, ih h.2]
    simp

theorem txtRun_strings {s1 : List Char} {srest : List (List Char)}
    (h1 : txtStringOk s1 = true) (h2 : srest.all txtStringOk = true) :
    txtRun .whitespace ('"' :: (s1 ++ '"' :: txtStringsRest srest)) [] [] =
      .ok (s1 :: srest) := by
  rw [txtRun_open_quote, txtRun_quoted_append h1, txtRun_rest h2]
  simp

end DnsTest

namespace DnsTest

theorem txtStringsRest_shape (strs : List (List Char)) :
    strs = [] ∨ ∃ u, txtStringsRest strs = u ++ ['"'] := by
  induction strs with
  | nil => exact Or.inl rfl
  | cons s rest ih =>
    refine Or.inr ?_
    rcases ih with hnil | ⟨u, hu⟩
    · exact ⟨' ' :: '"' :: s, by rw [txtStringsRest, hnil, txtStringsRest]; simp⟩
    · exact ⟨' ' :: '"' :: (s ++ '"' :: u), by rw [txtStringsRest, hu]; simp⟩

theorem last_of_concat_quote {L W : List Char} (hL : L = W ++ ['"']) :
    ∀ c, L.getLast? = some c → rustIsWhitespace c = false := by
  intro c hc
  rw [hL, List.getLast?_concat] at hc
  simp only [Option.some.injEq] at hc
  subst hc
  decide

theorem head_append_of_all {a b : List Char}
    (ha : a ≠ []) (h : ∀ c ∈ a, rustIsWhitespace c = false) :
    ∀ c, (a ++ b).head? = some c → rustIsWhitespace c = false := by
  cases a with
  | nil => exact absurd rfl ha
  | cons x xs =>
    intro c hc
    simp only [List.cons_append, List.head?_cons, Option.some.injEq] at hc
    exact hc ▸ h x (by simp)

theorem TXT.roundtrip_txt {r : TXT} (h : r.wf = true) : TXT.fromStr r.display = .ok r := by
  obtain ⟨hz, httl, hne, hall⟩ :
      r.zone.wf = true ∧ r.ttl ≤ U32MAX ∧ r.character_strings.isEmpty = false ∧
        r.character_strings.all txtStringOk = true := by
    simpa [TXT.wf, Bool.and_eq_true, and_assoc] using h
  obtain ⟨s1, srest, hstrs⟩ : ∃ s1 srest, r.character_strings = s1 :: srest := by
    cases hx : r.character_strings with
    | nil => rw [hx] at hne; simp at hne
    | cons a b => exact ⟨a, b, rfl⟩
  rw [hstrs] at hall
  simp only [List.all_cons, Bool.and_eq_true] at hall
  obtain ⟨hok1, hokrest⟩ := hall
  obtain ⟨u, hu⟩ : ∃ u, s1 ++ '"' :: txtStringsRest srest = u ++ ['"'] := by
    rcases txtStringsRest_shape srest with hnil | ⟨u', hu'⟩
    · exact ⟨s1, by rw [hnil, txtStringsRest]⟩
    · exact ⟨s1 ++ '"' :: u', by rw [hu']; simp⟩
  obtain ⟨d, cs, hdshape, -⟩ := natToChars_head_digit r.ttl
  have hdisp : r.display = r.zone.chars ++ '\t' ::
      (natToChars r.ttl ++ '\t' :: ("IN".toList ++ '\t' ::
        ("TXT".toList ++ '\t' :: ('"' :: (s1 ++ '"' :: txtStringsRest srest))))) := by
    unfold TXT.display
    rw [hstrs, txtStringsDisplay]
  have hL1 : natToChars r.ttl ++ '\t' :: ("IN".toList ++ '\t' ::
      ("TXT".toList ++ '\t' :: ('"' :: (s1 ++ '"' :: txtStringsRest srest)))) =
      (natToChars r.ttl ++ '\t' :: ("IN".toList ++ '\t' ::
        ("TXT".toList ++ '\t' :: ('"' :: u)))) ++ ['"'] := by
    rw [hu]
    simp
  have hL2 : "IN".toList ++ '\t' :: ("TXT".toList ++ '\t' ::
      ('"' :: (s1 ++ '"' :: txtStringsRest srest))) =
      ("IN".toList ++ '\t' :: ("TXT".toList ++ '\t' :: ('"' :: u))) ++ ['"'] := by
    rw [hu]
    simp
  have hL3 : "TXT".toList ++ '\t' :: ('"' :: (s1 ++ '"' :: txtStringsRest srest)) =
      ("TXT".toList ++ '\t' :: ('"' :: u)) ++ ['"'] := by
    rw [hu]
    simp
  have hL4 : '"' :: (s1 ++ '"' :: txtStringsRest srest) = ('"' :: u) ++ ['"'] := by
    rw [hu]
    simp
  have hhead1 : ∀ c, (natToChars r.ttl ++ '\t' :: ("IN".toList ++ '\t' ::
      ("TXT".toList ++ '\t' :: ('"' :: (s1 ++ '"' :: txtStringsRest srest))))).head? =
      some c → rustIsWhitespace c = false :=
    head_append_of_all (natToChars_ne_nil _) (natToChars_not_ws _)
  have hhead2 : ∀ c, ("IN".toList ++ '\t' :: ("TXT".toList ++ '\t' ::
      ('"' :: (s1 ++ '"' :: txtStringsRest srest)))).head? = some c →
      rustIsWhitespace c = false :=
    head_append_of_all (by decide) (by decide)
  have hhead3 : ∀ c, ("TXT".toList ++ '\t' ::
      ('"' :: (s1 ++ '"' :: txtStringsRest srest))).head? = some c →
      rustIsWhitespace c = false :=
    head_append_of_all (by decide) (by decide)
  have hhead4 : ∀ c, ('"' :: (s1 ++ '"' :: txtStringsRest srest)).head? = some c →
      rustIsWhitespace c = false := by
    intro c hc
    simp only [List.head?_cons, Option.some.injEq] at hc
    subst hc
    decide
  have h1 : txtNextColumn (r.zone.chars ++ '\t' ::
      (natToChars r.ttl ++ '\t' :: ("IN".toList ++ '\t' ::
        ("TXT".toList ++ '\t' :: ('"' :: (s1 ++ '"' :: txtStringsRest srest)))))) =
      (some r.zone.chars, natToChars r.ttl ++ '\t' :: ("IN".toList ++ '\t' ::
        ("TXT".toList ++ '\t' :: ('"' :: (s1 ++ '"' :: txtStringsRest srest))))) := by
    unfold txtNextColumn
    rw [splitOnceAsciiWs_token (fqdn_not_aws hz) awsTab]
    dsimp only
    rw [trimChars_eq_self hhead1 (last_of_concat_quote hL1)]
  have h2 : txtNextColumn (natToChars r.ttl ++ '\t' :: ("IN".toList ++ '\t' ::
      ("TXT".toList ++ '\t' :: ('"' :: (s1 ++ '"' :: txtStringsRest srest))))) =
      (some (natToChars r.ttl), "IN".toList ++ '\t' ::
        ("TXT".toList ++ '\t' :: ('"' :: (s1 ++ '"' :: txtStringsRest srest)))) := by
    unfold txtNextColumn
    rw [splitOnceAsciiWs_token (natToChars_not_aws _) awsTab]
    dsimp only
    rw [trimChars_eq_self hhead2 (last_of_concat_quote hL2)]
  have h3 : txtNextColumn ("IN".toList ++ '\t' :: ("TXT".toList ++ '\t' ::
      ('"' :: (s1 ++ '"' :: txtStringsRest srest)))) =
      (some "IN".toList, "TXT".toList ++ '\t' ::
        ('"' :: (s1 ++ '"' :: txtStringsRest srest))) := by
    unfold txtNextColumn
    rw [splitOnceAsciiWs_token (by decide) awsTab]
    dsimp only
    rw [trimChars_eq_self hhead3 (last_of_concat_quote hL3)]
  have h4 : txtNextColumn ("TXT".toList ++ '\t' ::
      ('"' :: (s1 ++ '"' :: txtStringsRest srest))) =
      (some "TXT".toList, '"' :: (s1 ++ '"' :: txtStringsRest srest)) := by
    unfold txtNextColumn
    rw [splitOnceAsciiWs_token (by decide) awsTab]
    dsimp only
    rw [trimChars_eq_self hhead4 (last_of_concat_quote hL4)]
  unfold TXT.fromStr
  rw [hdisp]
  have hctp : checkRecordType "TXT".toList "TXT".toList = .ok () := by
    simp [checkRecordType]
  have hccl : checkClass "IN".toList = .ok () := by
    simp [checkClass]
  simp only [h1, h2, h3, h4, hctp, hccl, RRes.bind_ok, txtRun_strings hok1 hokrest]
  rw [if_neg (List.cons_ne_nil s1 srest)]
  simp only [FQDN.fromStr_chars hz, parseUint_natToChars httl, RRes.ofOpt_some, RRes.bind_ok]
  rw [← hstrs]

end DnsTest

namespace DnsTest

theorem A.token3_a {a : A} (h : a.wf = true) :
    (splitWs rustIsWhitespace a.display)[3]? = some "A".toList := by
  rw [A.split_display_a h]
  simp

theorem CNAME.token3_cname {r : CNAME} (h : r.wf = true) :
    (splitWs rustIsWhitespace r.display)[3]? = some "CNAME".toList := by
  rw [CNAME.split_display_cname h]
  simp

theorem NS.token3_ns {r : NS} (h : r.wf = true) :
    (splitWs rustIsWhitespace r.display)[3]? = some "NS".toList := by
  rw [NS.split_display_ns h]
  simp

theorem SOA.token3_soa {r : SOA} (h : r.wf = true) :
    (splitWs rustIsWhitespace r.display)[3]? = some "SOA".toList := by
  rw [SOA.split_display_soa h]
  simp

theorem DNSKEY.token3_dnskey {r : DNSKEY} (h : r.wf = true) :
    (splitWs rustIsWhitespace r.display)[3]? = some "DNSKEY".toList := by
  rw [DNSKEY.split_display_dnskey h]
  simp

theorem DS.token3_ds {r : DS} (h : r.wf = true) :
    (splitWs rustIsWhitespace r.display)[3]? = some "DS".toList := by
  rw [DS.split_display_ds h]
  simp

theorem NSEC.token3_nsec {r : NSEC} (h : r.wf = true) :
    (splitWs rustIsWhitespace r.display)[3]? = some "NSEC".toList := by
  rw [NSEC.split_display_nsec h]
  simp

theorem NSEC3.token3_n3 {r : NSEC3} (h : r.wf = true) :
    (splitWs rustIsWhitespace r.display)[3]? = some "NSEC3".toList := by
  rw [NSEC3.split_display_n3 h]
  simp

theorem NSEC3PARAM.token3_n3p {r : NSEC3PARAM} (h : r.wf = true) :
    (splitWs rustIsWhitespace r.display)[3]? = some "NSEC3PARAM".toList := by
  rw [NSEC3PARAM.split_display_n3p h]
  simp

theorem RRSIG.token3_rrsig {r : RRSIG} (h : r.wf = true) :
    (splitWs rustIsWhitespace r.display)[3]? = some "RRSIG".toList := by
  rw [RRSIG.split_display_rrsig h]
  simp

theorem CAA.token3_caa {r : CAA} (h : r.wf = true) :
    (splitWs rustIsWhitespace r.display)[3]? = some "CAA".toList := by
  rw [CAA.split_display_caa h]
  simp

theorem TXT.token3_txt {r : TXT} (h : r.wf = true) :
    (splitWs rustIsWhitespace r.display)[3]? = some "TXT".toList := by
  obtain ⟨hz, -, hne, -⟩ :
      r.zone.wf = true ∧ r.ttl ≤ U32MAX ∧ r.character_strings.isEmpty = false ∧
        r.character_strings.all txtStringOk = true := by
    simpa [TXT.wf, Bool.and_eq_true, and_assoc] using h
  obtain ⟨s1, srest, hstrs⟩ : ∃ s1 srest, r.character_strings = s1 :: srest := by
    cases hx : r.character_strings with
    | nil => rw [hx] at hne; simp at hne
    | cons a b => exact ⟨a, b, rfl⟩
  unfold TXT.display
  rw [hstrs, txtStringsDisplay,
    splitWs_tok_sep wsTab (fqdn_ne_nil hz) (fqdn_not_ws hz),
    splitWs_tok_sep wsTab (natToChars_ne_nil _) (natToChars_not_ws _),
    splitWs_tok_sep wsTab (by decide) (by decide),
    splitWs_tok_sep wsTab (by decide) (by decide)]
  simp

theorem hexPair_not_ws (b : Nat) : ∀ c ∈ hexPair b, rustIsWhitespace c = false := by
  intro c hc
  simp only [hexPair, List.mem_cons, List.mem_singleton, List.not_mem_nil, or_false] at hc
  rcases hc with rfl | rfl <;> exact hexDigitChar_not_ws _

theorem UnknownRdata.token3_unk {r : UnknownRdata} (h : r.wf = true) :
    (splitWs rustIsWhitespace r.display)[3]? =
      some ("TYPE".toList ++ natToChars r.type) := by
  obtain ⟨hz, -, -, -, -⟩ :
      r.zone.wf = true ∧ r.ttl ≤ U32MAX ∧ r.type ≤ U16MAX ∧ r.rdata.length ≤ U64MAX ∧
        r.rdata.all (· < 256) = true := by
    simpa [UnknownRdata.wf, Bool.and_eq_true, and_assoc] using h
  have htype : ("TYPE".toList ++ natToChars r.type) ≠ [] ∧
      ∀ c ∈ "TYPE".toList ++ natToChars r.type, rustIsWhitespace c = false := by
    constructor
    · simp
    · exact List.forall_mem_append.mpr ⟨by decide, natToChars_not_ws _⟩
  unfold UnknownRdata.display
  rw [splitWs_tok_sep wsTab (fqdn_ne_nil hz) (fqdn_not_ws hz),
    splitWs_tok_sep wsTab (natToChars_ne_nil _) (natToChars_not_ws _),
    splitWs_tok_sep wsTab (by decide) (by decide),
    splitWs_tok_sep wsTab htype.1 htype.2]
  simp

end DnsTest

namespace DnsTest

/-- The full record round trip: parsing the emitted presentation line of a
well-formed record yields the record back. -/
theorem Record.roundtrip_record {r : Record} (h : r.wf = true) :
    Record.fromStr r.display = .ok r := by
  cases r with
  | A a =>
    have hwf : a.wf = true := by simpa [Record.wf] using h
    unfold Record.fromStr
    rw [show Record.display (.A a) = a.display from rfl, A.token3_a hwf]
    simp [A.roundtrip_a hwf]
  | CAA caa =>
    have hwf : caa.wf = true := by simpa [Record.wf] using h
    unfold Record.fromStr
    rw [show Record.display (.CAA caa) = caa.display from rfl, CAA.token3_caa hwf]
    simp [CAA.roundtrip_caa hwf]
  | CNAME cname =>
    have hwf : cname.wf = true := by simpa [Record.wf] using h
    unfold Record.fromStr
    rw [show Record.display (.CNAME cname) = cname.display from rfl, CNAME.token3_cname hwf]
    simp [CNAME.roundtrip_cname hwf]
  | DNSKEY dnskey =>
    have hwf : dnskey.wf = true := by simpa [Record.wf] using h
    unfold Record.fromStr
    rw [show Record.display (.DNSKEY dnskey) = dnskey.display from rfl, DNSKEY.token3_dnskey hwf]
    simp [DNSKEY.roundtrip_dnskey hwf]
  | DS ds =>
    have hwf : ds.wf = true := by simpa [Record.wf] using h
    unfold Record.fromStr
    rw [show Record.display (.DS ds) = ds.display from rfl, DS.token3_ds hwf]
    simp [DS.roundtrip_ds hwf]
  | NS ns =>
    have hwf : ns.wf = true := by simpa [Record.wf] using h
    unfold Record.fromStr
    rw [show Record.display (.NS ns) = ns.display from rfl, NS.token3_ns hwf]
    simp [NS.roundtrip_ns hwf]
  | NSEC nsec =>
    have hwf : nsec.wf = true := by simpa [Record.wf] using h
    unfold Record.fromStr
    rw [show Record.display (.NSEC nsec) = nsec.display from rfl, NSEC.token3_nsec hwf]
    simp [NSEC.roundtrip_nsec hwf]
  | NSEC3 nsec3 =>
    have hwf : nsec3.wf = true := by simpa [Record.wf] using h
    unfold Record.fromStr
    rw [show Record.display (.NSEC3 nsec3) = nsec3.display from rfl, NSEC3.token3_n3 hwf]
    simp [NSEC3.roundtrip_n3 hwf]
  | NSEC3PARAM nsec3param =>
    have hwf : nsec3param.wf = true := by simpa [Record.wf] using h
    unfold Record.fromStr
    rw [show Record.display (.NSEC3PARAM nsec3param) = nsec3param.display from rfl,
      NSEC3PARAM.token3_n3p hwf]
    simp [NSEC3PARAM.roundtrip_n3p hwf]
  | RRSIG rrsig =>
    have hwf : rrsig.wf = true := by simpa [Record.wf] using h
    unfold Record.fromStr
    rw [show Record.display (.RRSIG rrsig) = rrsig.display from rfl, RRSIG.token3_rrsig hwf]
    simp [RRSIG.roundtrip_rrsig hwf]
  | SOA soa =>
    have hwf : soa.wf = true := by simpa [Record.wf] using h
    unfold Record.fromStr
    rw [show Record.display (.SOA soa) = soa.display from rfl, SOA.token3_soa hwf]
    simp [SOA.roundtrip_soa hwf]
  | TXT txt =>
    have hwf : txt.wf = true := by simpa [Record.wf] using h
    unfold Record.fromStr
    rw [show Record.display (.TXT txt) = txt.display from rfl, TXT.token3_txt hwf]
    simp [TXT.roundtrip_txt hwf]
  | Unknown other =>
    have hwf : other.wf = true := by simpa [Record.wf] using h
    unfold Record.fromStr
    rw [show Record.display (.Unknown other) = other.display from rfl,
      UnknownRdata.token3_unk hwf,
      show "TYPE".toList ++ natToChars other.type =
        'T' :: 'Y' :: 'P' :: 'E' :: natToChars other.type from rfl]
    simp [UnknownRdata.roundtrip_unk hwf, startsWithTYPE]

end DnsTest

namespace Tsig

/-! ## TSIG (`crates/proto/src/dnssec/tsig.rs`)

The TSIG rdata module (`TSIG` struct, `TSIG::stub`, `make_tsig_record`,
`message_tbs`, `signed_bitmessage_to_buf`, `emit_tsig_for_mac`) and the HMAC
primitives are external to the provided sources and are modelled from the
spec; the `TSigner` operations and the response-context state machine are
translated from the source. -/

/-- The supported TSIG algorithms (spec §6). -/
inductive TsigAlgorithm where
  | hmacSha1
  | hmacSha224
  | hmacSha256
  | hmacSha384
  | hmacSha512
deriving DecidableEq

/-- HMAC output length in bytes. -/
def TsigAlgorithm.outputLen : TsigAlgorithm → Nat
  | .hmacSha1 => 20
  | .hmacSha224 => 28
  | .hmacSha256 => 32
  | .hmacSha384 => 48
  | .hmacSha512 => 64

/-- All five modelled algorithms are supported. -/
def TsigAlgorithm.supported : TsigAlgorithm → Bool := fun _ => true

def TsigAlgorithm.code : TsigAlgorithm → Nat
  | .hmacSha1 => 1
  | .hmacSha224 => 2
  | .hmacSha256 => 3
  | .hmacSha384 => 4
  | .hmacSha512 => 5

/-- Modelled from the spec: the external HMAC primitive (`mac_data`).  The
claims only need a deterministic keyed function whose output has the
algorithm's length; verification compares against it in constant time. -/
def macData (alg : TsigAlgorithm) (key : List Nat) (tbs : List Nat) : List Nat :=
  (List.range alg.outputLen).map fun i =>
    (key.foldl (fun a b => (a * 31 + b) % 65536) 7 +
      tbs.foldl (fun a b => (a * 33 + b) % 65536) 11 + i) % 256

theorem macData_length (alg : TsigAlgorithm) (key tbs : List Nat) :
    (macData alg key tbs).length = alg.outputLen := by
  simp [macData]

/-- TSIG error codes carried in the TSIG RR (`BadSig = 16`, `BadKey = 17`). -/
inductive TsigError where
  | badSig
  | badKey
  | other (code : Nat)
deriving DecidableEq

def TsigError.code : TsigError → Nat
  | .badSig => 16
  | .badKey => 17
  | .other code => code

/-- A DNS name (key name / algorithm owner name). -/
structure Name where
  chars : List Char
deriving DecidableEq

/-- Modelled from the spec: `Name::set_fqdn(true)` forces the trailing dot. -/
def Name.setFqdn (n : Name) : Name :=
  if n.chars.getLast? = some '.' then n else ⟨n.chars ++ ['.']⟩

/-- Modelled from the spec: the TSIG rdata (algorithm, `time_signed`, fudge,
MAC, original id, error, other data). -/
structure TSIG where
  algorithm : TsigAlgorithm
  time : Nat
  fudge : Nat
  mac : List Nat
  oid : Nat
  error : Option TsigError
  other : List Nat
deriving DecidableEq

/-- `TSIG::new` with the argument order used at the call sites. -/
def TSIG.new (algorithm : TsigAlgorithm) (time fudge : Nat) (mac : List Nat)
    (oid : Nat) (error : Option TsigError) (other : List Nat) : TSIG :=
  ⟨algorithm, time, fudge, mac, oid, error, other⟩

def TSIG.setMac (t : TSIG) (mac : List Nat) : TSIG := { t with mac := mac }

def TSIG.setError (t : TSIG) (e : TsigError) : TSIG := { t with error := some e }

structure TSignerInner where
  key : List Nat
  algorithm : TsigAlgorithm
  signer_name : Name
  fudge : Nat
deriving DecidableEq

/-- `TSigner`: a cheaply clonable handle on the shared inner state. -/
structure TSigner where
  inner : TSignerInner
deriving DecidableEq

/-- Modelled from the spec: `TSIG::stub(id, time, signer)` — algorithm and
fudge from the signer, empty MAC, no error. -/
def TSIG.stub (id : Nat) (time : Nat) (signer : TSigner) : TSIG :=
  ⟨signer.inner.algorithm, time, signer.inner.fudge, [], id, none, []⟩

/-- A TSIG resource record: the owner (key) name and the rdata. -/
structure TsigRecord where
  name : Name
  data : TSIG
deriving DecidableEq

/-- Modelled from the spec: `make_tsig_record`. -/
def makeTsigRecord (name : Name) (tsig : TSIG) : TsigRecord := ⟨name, tsig⟩

/-- `MessageSignature` (only the TSIG variant matters here). -/
inductive MessageSignature where
  | unsigned
  | tsig (record : TsigRecord)
deriving DecidableEq

def u16be (n : Nat) : List Nat := [n / 256 % 256, n % 256]

def u48be (n : Nat) : List Nat :=
  [n / 1099511627776 % 256, n / 4294967296 % 256, n / 16777216 % 256,
    n / 65536 % 256, n / 256 % 256, n % 256]

/-- Modelled from the spec: `emit_tsig_for_mac` — the canonical TSIG rdata
without the MAC, preceded by the owner name. -/
def emitTsigForMac (stub : TSIG) (name : Name) : List Nat :=
  name.chars.map Char.toNat ++ stub.algorithm.code :: (u48be stub.time ++
    u16be stub.fudge ++ u16be stub.oid ++
    (match stub.error with | none => 0 | some e => e.code) :: stub.other)

/-- Modelled from the spec: the to-be-signed buffer of the TSIG rdata module.
For chained messages the previous MAC is prefixed with its 2-byte length; for
non-first stream messages only the timers would be covered — the claims only
exercise the first-message form. -/
def tsigTbs (previous_hash : Option (List Nat)) (first_message : Bool)
    (msg : List Nat) (stub : TSIG) (name : Name) : List Nat :=
  (match previous_hash with
   | none => []
   | some h => u16be h.length ++ h) ++ msg ++
  (if first_message then emitTsigForMac stub name
   else u48be stub.time ++ u16be stub.fudge)

/-- A DNS message: id and encoded bytes. -/
structure Message where
  id : Nat
  bytes : List Nat
deriving DecidableEq

/-- A message carrying a TSIG signature: the message bytes and the TSIG RR. -/
structure SignedMessage where
  msg : List Nat
  record : TsigRecord
deriving DecidableEq

/-- Modelled from the spec: `signed_bitmessage_to_buf` splits the TSIG record
off the received message and rebuilds the to-be-verified buffer from the
received TSIG's fields (MAC removed). -/
def signedBitmessageToBuf (smsg : SignedMessage) (previous_hash : Option (List Nat))
    (first_message : Bool) : RRes (List Nat × TsigRecord) :=
  .ok (tsigTbs previous_hash first_message smsg.msg (smsg.record.data.setMac [])
    smsg.record.name, smsg.record)

/-- `TSigner::sign`: delegate to the algorithm's HMAC. -/
def TSigner.sign (s : TSigner) (tbs : List Nat) : List Nat :=
  macData s.inner.algorithm s.inner.key tbs

/-- `TSigner::verify`: constant-time comparison of the tag with the HMAC of
the to-be-verified buffer. -/
def TSigner.verify (s : TSigner) (tbv : List Nat) (tag : List Nat) : RRes Unit :=
  if tag = macData s.inner.algorithm s.inner.key tbv then .ok ()
  else .err "mac mismatch".toList

/-- `TSigner::new`: reject unsupported algorithms, force the name to FQDN. -/
def TSigner.new (key : List Nat) (algorithm : TsigAlgorithm) (signer_name : Name)
    (fudge : Nat) : RRes TSigner :=
  if algorithm.supported then .ok ⟨⟨key, algorithm, signer_name.setFqdn, fudge⟩⟩
  else .err "TsigUnsupportedMacAlgorithm".toList

/-- `u64` subtraction as it behaves in a debug build: underflow panics. -/
def checkedSub (a b : Nat) : Option Nat :=
  if b ≤ a then some (a - b) else none

/-- Rust `core::ops::Range<u64>`: `contains` is start-inclusive and
end-exclusive.  The Rust field `end` is called `stop` here. -/
structure RustRange where
  start : Nat
  stop : Nat
deriving DecidableEq

def RustRange.contains (r : RustRange) (x : Nat) : Bool :=
  r.start ≤ x && x < r.stop

/-- `TSigner::verify_message_byte` (translated from the source): check key
name and algorithm, refuse truncated MACs, constant-time-verify, then return
the MAC, the signature time, and the fudge range.  The range start
`time - fudge` is computed with unchecked `u64` subtraction; the debug-build
underflow panic is modelled as `RRes.panicked`. -/
def TSigner.verifyMessageByte (s : TSigner) (message : SignedMessage)
    (previous_hash : Option (List Nat)) (first_message : Bool) :
    RRes (List Nat × Nat × RustRange) :=
  match signedBitmessageToBuf message previous_hash first_message with
  | .err m => .err m
  | .panicked m => .panicked m
  | .ok (tbv, record) =>
    let tsig := record.data
    if record.name ≠ s.inner.signer_name ∨ tsig.algorithm ≠ s.inner.algorithm then
      .err "TsigWrongKey".toList
    else if tsig.mac.length < tsig.algorithm.outputLen then
      .err "truncated MACs are not supported".toList
    else
      match s.verify tbv tsig.mac with
      | .err m => .err m
      | .panicked m => .panicked m
      | .ok _ =>
        match checkedSub tsig.time tsig.fudge with
        | none => .panicked "attempt to subtract with overflow".toList
        | some start =>
          .ok (tsig.mac, tsig.time, ⟨start, tsig.time + tsig.fudge⟩)

/-- `<TSigner as MessageSigner>::sign_message`, reduced to the signed message
it produces: the stub TSIG from the message id and current time, the MAC over
the to-be-signed buffer, and the TSIG record under the signer's key name. -/
def TSigner.signMessage (s : TSigner) (message : Message) (current_time : Nat) :
    SignedMessage :=
  let pre_tsig := TSIG.stub message.id current_time s
  let signature := s.sign (tsigTbs none true message.bytes pre_tsig s.inner.signer_name)
  ⟨message.bytes, makeTsigRecord s.inner.signer_name (pre_tsig.setMac signature)⟩

/-- `TSigner::encode_response_tbs`. -/
def TSigner.encodeResponseTbs (s : TSigner) (previous_mac : List Nat)
    (encoded_response : List Nat) (stub_tsig : TSIG) : List Nat :=
  u16be previous_mac.length ++ previous_mac ++ encoded_response ++
    emitTsigForMac stub_tsig s.inner.signer_name

/-- `TSigResponseContext`. -/
structure TSigResponseContext where
  request_id : Nat
  time : Nat
deriving DecidableEq

def TSigResponseContext.new (request_id time : Nat) : TSigResponseContext :=
  ⟨request_id, time⟩

/-- The three response signers yielded by consuming a `TSigResponseContext`. -/
inductive ResponseSigner where
  | signed (request_mac : List Nat) (error : Option TsigError) (signer : TSigner)
      (request_id : Nat) (time : Nat)
  | badSignature (signer : TSigner) (request_id : Nat) (time : Nat)
  | unknownKey (time : Nat) (key_name : Name) (request_id : Nat)
deriving DecidableEq

/-- `TSigResponseContext::sign`. -/
def TSigResponseContext.sign (ctx : TSigResponseContext) (req_sig : TSIG)
    (error : Option TsigError) (signer : TSigner) : ResponseSigner :=
  .signed req_sig.mac error signer ctx.request_id ctx.time

/-- `TSigResponseContext::bad_signature`. -/
def TSigResponseContext.badSignature (ctx : TSigResponseContext) (signer : TSigner) :
    ResponseSigner :=
  .badSignature signer ctx.request_id ctx.time

/-- `TSigResponseContext::unknown_key`. -/
def TSigResponseContext.unknownKey (ctx : TSigResponseContext) (key_name : Name) :
    ResponseSigner :=
  .unknownKey ctx.time key_name ctx.request_id

/-- `ResponseSigner::sign(response)` for the three signer variants, translated
from the three `impl ResponseSigner for ...` blocks. -/
def ResponseSigner.sign : ResponseSigner → List Nat → RRes MessageSignature
  | .signed request_mac error signer request_id time, response =>
    let stub_tsig :=
      match error with
      | some e => (TSIG.stub request_id time signer).setError e
      | none => TSIG.stub request_id time signer
    let tbs := signer.encodeResponseTbs request_mac response stub_tsig
    let resp_tsig := stub_tsig.setMac (signer.sign tbs)
    .ok (.tsig (makeTsigRecord signer.inner.signer_name resp_tsig))
  | .badSignature signer request_id time, _ =>
    .ok (.tsig (makeTsigRecord signer.inner.signer_name
      (((TSIG.stub request_id time signer)).setError .badSig)))
  | .unknownKey time key_name request_id, _ =>
    .ok (.tsig (makeTsigRecord key_name
      (TSIG.new .hmacSha256 time 300 [] request_id (some .badKey) [])))

end Tsig

namespace Tsig

/-- Sign-then-verify: for `t ≥ fudge`, verification of a freshly signed
message succeeds and returns the message's MAC, the signing time, and the
half-open range from `t - fudge` to `t + fudge`. -/
theorem verifyMessageByte_signMessage (S : TSigner) (M : Message) (t : Nat)
    (h : S.inner.fudge ≤ t) :
    S.verifyMessageByte (S.signMessage M t) none true =
      .ok ((S.signMessage M t).record.data.mac, t,
        ⟨t - S.inner.fudge, t + S.inner.fudge⟩) := by
  unfold TSigner.verifyMessageByte signedBitmessageToBuf TSigner.signMessage
    TSigner.sign TSIG.stub makeTsigRecord TSIG.setMac
  dsimp only
  rw [if_neg (by simp)]
  rw [if_neg (by rw [macData_length]; omega)]
  unfold TSigner.verify
  rw [if_pos rfl]
  unfold checkedSub
  rw [if_pos h]

/-- With `t < fudge`, the range-start subtraction underflows and (in a debug
build) verification panics. -/
theorem verifyMessageByte_underflow (S : TSigner) (M : Message) (t : Nat)
    (h : t < S.inner.fudge) :
    S.verifyMessageByte (S.signMessage M t) none true =
      .panicked "attempt to subtract with overflow".toList := by
  unfold TSigner.verifyMessageByte signedBitmessageToBuf TSigner.signMessage
    TSigner.sign TSIG.stub makeTsigRecord TSIG.setMac
  dsimp only
  rw [if_neg (by simp)]
  rw [if_neg (by rw [macData_length]; omega)]
  unfold TSigner.verify
  rw [if_pos rfl]
  unfold checkedSub
  rw [if_neg (by omega)]

end Tsig

namespace DnsTest

theorem txtRun_unclosed : ∀ (s : List Char), txtStringOk s = true →
    ∀ cur acc, txtRun .quoted s cur acc =
      RRes.err "quoted string in TXT record was not closed".toList := by
  intro s
  induction s with
  | nil => intro _ cur acc; rfl
  | cons c s ih =>
    intro hs cur acc
    obtain ⟨h80, hq, hat, hbs⟩ := txtStringOk_char hs (List.mem_cons_self c s)
    have hs' : txtStringOk s = true := by
      simp only [txtStringOk, List.all_cons, Bool.and_eq_true] at hs
      exact hs.2
    rw [txtRun_quoted_char h80 hq hat hbs, ih hs']

end DnsTest

/-! ## The claims -/

/-- Concrete TXT record whose character string contains `@`: its emitted text
does not parse back. -/
def cexC1 : DnsTest.Record :=
  .TXT ⟨⟨"example.testing.".toList⟩, 0, ["a@b".toList]⟩

/-- C1 counterexample: a TXT record value whose emission fails to re-parse —
the `@` in the character string aborts the TXT tokeniser. -/
theorem claim_C1_cex :
    DnsTest.Record.fromStr (DnsTest.Record.display cexC1) =
      RRes.err "denoting the current origin with @ in TXT records is not supported".toList := by
  decide

/-- C1 (amended): for every record value of a supported presentation type
whose fields are well-formed (valid FQDNs, numeric fields within their Rust
integer bounds, whitespace-free key/digest/signature/salt texts, a
semicolon-free DNSKEY key, TXT strings that are ASCII and free of `"`, `@`
and backslash with at least one string present, a whitespace-free CAA tag and
a CAA value that is empty or whitespace-free and distinct from the literal
`""`, and unknown-rdata bytes below 256), parsing the emitted text yields the
record back: `Record::from_str(R.to_string()) == Ok(R)`. -/
theorem claim_C1 : ∀ {r : DnsTest.Record}, r.wf = true →
    DnsTest.Record.fromStr r.display = .ok r :=
  fun h => DnsTest.Record.roundtrip_record h

/-- Concrete witness record for C1 (the spec's A-record seed). -/
def wC1 : DnsTest.Record :=
  .A ⟨⟨"a.root-servers.net.".toList⟩, 77859, ⟨198, 41, 0, 4⟩⟩

theorem claim_C1_witness :
    DnsTest.Record.wf wC1 = true ∧
      DnsTest.Record.fromStr (DnsTest.Record.display wC1) = RRes.ok wC1 :=
  ⟨by decide, claim_C1 (by decide)⟩

/-- C2: for a DNSKEY with algorithm ≠ 1 whose key decodes, the dns-test
`calculate_key_tag` returns the reference checksum of the canonical rdata
buffer (flags, the octet 3, algorithm, key bytes), and the proto crate's
`calculate_key_tag_internal` computes the same checksum on that buffer. -/
theorem claim_C2 : ∀ (r : DnsTest.DNSKEYRData) (pk : List Nat),
    r.algorithm ≠ 1 → base64Decode r.public_key = some pk →
    DnsTest.DNSKEYRData.calculateKeyTag r =
      some (specKeyTagChecksum (DnsTest.u16BeBytes r.flags ++ 3 :: r.algorithm :: pk)) ∧
    Proto.calculateKeyTagInternal (DnsTest.u16BeBytes r.flags ++ 3 :: r.algorithm :: pk) =
      specKeyTagChecksum (DnsTest.u16BeBytes r.flags ++ 3 :: r.algorithm :: pk) := by
  intro r pk halg hdec
  have hacc : specKeyTagAcc (DnsTest.u16BeBytes r.flags ++ 3 :: r.algorithm :: pk) 0 0 =
      DnsTest.chunkSum (DnsTest.u16BeBytes r.flags ++ 3 :: r.algorithm :: pk) 0 :=
    specAcc_eq_chunkSum _ 0 0 rfl
  have hlt : specKeyTagAcc (DnsTest.u16BeBytes r.flags ++ 3 :: r.algorithm :: pk) 0 0 <
      4294967296 := specAcc_lt _ 0 0 (by omega)
  have hmod : specKeyTagAcc (DnsTest.u16BeBytes r.flags ++ 3 :: r.algorithm :: pk) 0 0
      / 65536 % 65536 =
      specKeyTagAcc (DnsTest.u16BeBytes r.flags ++ 3 :: r.algorithm :: pk) 0 0 / 65536 :=
    Nat.mod_eq_of_lt (by omega)
  rw [hacc] at hmod
  constructor
  · unfold DnsTest.DNSKEYRData.calculateKeyTag
    rw [hdec]
    dsimp only
    rw [if_neg halg]
    unfold specKeyTagChecksum
    dsimp only
    rw [hacc, hmod]
  · unfold Proto.calculateKeyTagInternal specKeyTagChecksum
    dsimp only
    rw [byteSum_eq_specAcc, hacc, hmod]

/-- The root-zone KSK public key (the `dig DNSKEY .` vector of the tests). -/
def rootKskB64 : List Char :=
  ("AwEAAaz/tAm8yTn4Mfeh5eyI96WSVexTBAvkMgJzkKTOiW1vkIbzxeF3" ++
   "+/4RgWOq7HrxRixHlFlExOLAJr5emLvN7SWXgnLh4+B5xQlNVz8Og8kv" ++
   "ArMtNROxVQuCaSnIDdD5LKyWbRd2n9WGe2R8PzgCmr3EgVLrjyBxWezF" ++
   "0jLHwVN8efS3rCj/EWgvIWgb9tarpVUDK/b58Da+sqqls3eNbuv7pr+e" ++
   "oZG+SrDK6nWeL3c6H5Apxz7LjVc1uTIdsIXxuOLYA4/ilBmSVIzuDWfd" ++
   "RUfhHdY6+cn8HFRm+2hM8AnXGXws9555KrUB5qihylGa8subX2Nn6UwN" ++
   "R1AkUTV74bU=").toList

def rootKsk : DnsTest.DNSKEYRData := ⟨257, 3, 8, rootKskB64⟩

def rootKskBytes : List Nat := (base64Decode rootKskB64).getD []

def rootKskBuf : List Nat := DnsTest.u16BeBytes 257 ++ 3 :: 8 :: rootKskBytes

set_option maxRecDepth 100000 in
theorem claim_C2_witness :
    DnsTest.DNSKEYRData.calculateKeyTag rootKsk = some (specKeyTagChecksum rootKskBuf) ∧
      Proto.calculateKeyTagInternal rootKskBuf = specKeyTagChecksum rootKskBuf ∧
      specKeyTagChecksum rootKskBuf = 20326 := by
  have h := claim_C2 rootKsk rootKskBytes (by decide) (by decide)
  exact ⟨h.1, h.2, by decide⟩

/-- C3 (amended): signing a message at time `t ≥ fudge` and verifying the
result (no previous hash, first message) returns `Ok` with the message's MAC,
`time_signed = t`, and the HALF-OPEN range `t - fudge .. t + fudge`
(a Rust `Range`): the lower endpoint `t - fudge` is accepted exactly when
`fudge > 0`, and the upper endpoint `t + fudge` is always rejected — the
range is not the inclusive interval the spec describes. -/
theorem claim_C3 (S : Tsig.TSigner) (M : Tsig.Message) (t : Nat)
    (h : S.inner.fudge ≤ t) :
    Tsig.TSigner.verifyMessageByte S (Tsig.TSigner.signMessage S M t) none true =
      .ok ((Tsig.TSigner.signMessage S M t).record.data.mac, t,
        ⟨t - S.inner.fudge, t + S.inner.fudge⟩) ∧
    (Tsig.RustRange.contains ⟨t - S.inner.fudge, t + S.inner.fudge⟩
        (t - S.inner.fudge) = true ↔ 0 < S.inner.fudge) ∧
    Tsig.RustRange.contains ⟨t - S.inner.fudge, t + S.inner.fudge⟩
        (t + S.inner.fudge) = false := by
  refine ⟨Tsig.verifyMessageByte_signMessage S M t h, ?_, ?_⟩
  · simp [Tsig.RustRange.contains]
    omega
  · simp [Tsig.RustRange.contains]

/-- Concrete signer and message refuting the inclusive-range reading of the
TSIG verification window. -/
def cexC3S : Tsig.TSigner := ⟨⟨[1, 2, 3], .hmacSha256, ⟨"key.".toList⟩, 300⟩⟩

def cexC3M : Tsig.Message := ⟨0, [9, 9]⟩

/-- C3 counterexample: with fudge 300 and signing time 1000, verification
returns the range from 700 to 1300, and 1300 — the upper endpoint `t + fudge`
the spec calls accepted — is NOT contained in that range. -/
theorem claim_C3_cex :
    Tsig.TSigner.verifyMessageByte cexC3S
        (Tsig.TSigner.signMessage cexC3S cexC3M 1000) none true =
      .ok ((Tsig.TSigner.signMessage cexC3S cexC3M 1000).record.data.mac, 1000,
        ⟨700, 1300⟩) ∧
    Tsig.RustRange.contains ⟨700, 1300⟩ 1300 = false := by
  constructor
  · decide
  · decide

def wC3S : Tsig.TSigner := ⟨⟨[7], .hmacSha1, ⟨"w.".toList⟩, 10⟩⟩

def wC3M : Tsig.Message := ⟨1, [5]⟩

theorem claim_C3_witness :
    wC3S.inner.fudge ≤ 50 ∧
    (Tsig.TSigner.verifyMessageByte wC3S (Tsig.TSigner.signMessage wC3S wC3M 50) none true =
        .ok ((Tsig.TSigner.signMessage wC3S wC3M 50).record.data.mac, 50,
          ⟨50 - wC3S.inner.fudge, 50 + wC3S.inner.fudge⟩) ∧
      (Tsig.RustRange.contains ⟨50 - wC3S.inner.fudge, 50 + wC3S.inner.fudge⟩
          (50 - wC3S.inner.fudge) = true ↔ 0 < wC3S.inner.fudge) ∧
      Tsig.RustRange.contains ⟨50 - wC3S.inner.fudge, 50 + wC3S.inner.fudge⟩
          (50 + wC3S.inner.fudge) = false) :=
  ⟨by decide, claim_C3 wC3S wC3M 50 (by decide)⟩

/-- C4: for a DNSKEY with algorithm 1 (RSA/MD5) whose key decodes to at
least 3 bytes, `calculate_key_tag` returns the big-endian u16 read at offset
`len - 3` of the decoded key. -/
theorem claim_C4 (r : DnsTest.DNSKEYRData) (pk : List Nat)
    (halg : r.algorithm = 1) (hdec : base64Decode r.public_key = some pk)
    (hlen : 3 ≤ pk.length) :
    DnsTest.DNSKEYRData.calculateKeyTag r =
      some (pk.getD (pk.length - 3) 0 * 256 + pk.getD (pk.length - 2) 0) := by
  unfold DnsTest.DNSKEYRData.calculateKeyTag
  rw [hdec]
  dsimp only
  rw [if_pos halg, if_neg (by omega)]

/-- The RSA/MD5 DNSKEY of `rsamd5.extended-dns-errors.com.` (test vector). -/
def rsamd5B64 : List Char :=
  ("AwEAAcpRn4ct2tt2a6RRqOYEDMtK8zETcLvpSoHhthWF" ++
   "8WBvko0XodJJYlstLN6JMb5NwRAgcfddH3sR/ELdw2Hk" ++
   "Hrp/jRRBW4wAHiVZU1uDRml0pD9ZEWQ3It+eDp/lG+Cp" ++
   "Q3e5BGibTPCoWtOvx5uZQDkLlQBAXu2vTn1w2VXCMuwP").toList

def rsamd5Rec : DnsTest.DNSKEYRData := ⟨257, 3, 1, rsamd5B64⟩

def rsamd5Bytes : List Nat := (base64Decode rsamd5B64).getD []

set_option maxRecDepth 100000 in
theorem claim_C4_witness :
    (rsamd5Rec.algorithm = 1 ∧ base64Decode rsamd5Rec.public_key = some rsamd5Bytes ∧
      3 ≤ rsamd5Bytes.length) ∧
    DnsTest.DNSKEYRData.calculateKeyTag rsamd5Rec =
      some (rsamd5Bytes.getD (rsamd5Bytes.length - 3) 0 * 256 +
        rsamd5Bytes.getD (rsamd5Bytes.length - 2) 0) ∧
    DnsTest.DNSKEYRData.calculateKeyTag rsamd5Rec = some 13036 := by
  refine ⟨⟨rfl, by decide, by decide⟩,
    claim_C4 rsamd5Rec rsamd5Bytes rfl (by decide) (by decide), by decide⟩

/-- C5: the response signer produced by `unknown_key(k)` on a context built
from `(request_id, time)` returns, for any response bytes, a TSIG record
owned by `k` with error `BadKey`, empty MAC, algorithm HMAC-SHA256,
fudge 300, original id `request_id` and time `time`; and the result is
independent of the response bytes (no MAC is computed over them). -/
theorem claim_C5 (request_id time : Nat) (k : Tsig.Name)
    (response response2 : List Nat) :
    Tsig.ResponseSigner.sign
        (Tsig.TSigResponseContext.unknownKey (Tsig.TSigResponseContext.new request_id time) k)
        response =
      .ok (.tsig (Tsig.makeTsigRecord k
        (Tsig.TSIG.new .hmacSha256 time 300 [] request_id (some .badKey) []))) ∧
    Tsig.ResponseSigner.sign
        (Tsig.TSigResponseContext.unknownKey (Tsig.TSigResponseContext.new request_id time) k)
        response =
      Tsig.ResponseSigner.sign
        (Tsig.TSigResponseContext.unknownKey (Tsig.TSigResponseContext.new request_id time) k)
        response2 :=
  ⟨rfl, rfl⟩

/-- C6 (amended): on a line with exactly 8 whitespace-separated columns,
class `IN` and type `NSEC3PARAM`, a salt column other than `-` makes the
parser hit `todo!("salt is not implemented")` — a PANIC that aborts the
process, not an error result returned to the caller. -/
theorem claim_C6 (input zone ttl hash_alg flags iterations salt : List Char)
    (hsplit : splitWs rustIsWhitespace input =
      [zone, ttl, "IN".toList, "NSEC3PARAM".toList, hash_alg, flags, iterations, salt])
    (hsalt : salt ≠ "-".toList) :
    DnsTest.NSEC3PARAM.fromStr input =
      RRes.panicked "salt is not implemented".toList ∧
    ∀ m, DnsTest.NSEC3PARAM.fromStr input ≠ RRes.err m := by
  have h1 : DnsTest.NSEC3PARAM.fromStr input =
      RRes.panicked "salt is not implemented".toList := by
    unfold DnsTest.NSEC3PARAM.fromStr
    rw [hsplit]
    dsimp only
    have hct : DnsTest.checkRecordType "NSEC3PARAM".toList "NSEC3PARAM".toList =
        .ok () := by decide
    have hcl : DnsTest.checkClass "IN".toList = .ok () := by decide
    rw [hct, RRes.bind_ok, hcl, RRes.bind_ok, if_pos hsalt]
  refine ⟨h1, ?_⟩
  intro m
  rw [h1]
  simp

/-- C6 counterexample for the spec's wording: a concrete NSEC3PARAM line with
salt `AABB` does not produce an error result — it panics. -/
theorem claim_C6_cex :
    DnsTest.NSEC3PARAM.fromStr
        "example.com. 3600 IN NSEC3PARAM 1 0 5 AABB".toList =
      RRes.panicked "salt is not implemented".toList := by
  decide

theorem claim_C6_witness :
    (splitWs rustIsWhitespace "a. 1 IN NSEC3PARAM 1 0 5 CC".toList =
      ["a.".toList, "1".toList, "IN".toList, "NSEC3PARAM".toList,
        "1".toList, "0".toList, "5".toList, "CC".toList] ∧
      "CC".toList ≠ "-".toList) ∧
    (DnsTest.NSEC3PARAM.fromStr "a. 1 IN NSEC3PARAM 1 0 5 CC".toList =
        RRes.panicked "salt is not implemented".toList ∧
      ∀ m, DnsTest.NSEC3PARAM.fromStr "a. 1 IN NSEC3PARAM 1 0 5 CC".toList ≠
        RRes.err m) :=
  ⟨⟨by decide, by decide⟩,
    claim_C6 "a. 1 IN NSEC3PARAM 1 0 5 CC".toList "a.".toList "1".toList
      "1".toList "0".toList "5".toList "CC".toList (by decide) (by decide)⟩

/-- C7 (amended): in the TXT tokeniser, a non-ASCII character, `@`, or `\`
errs in EVERY state; `(` errs ONLY in the Whitespace state — inside an
unquoted or quoted string it is consumed as an ordinary character; an input
whose rdata yields no character string is rejected, as is a quoted string
left unclosed at end of input. -/
theorem claim_C7 :
    (∀ (st : DnsTest.TxtState) (c : Char) (rest cur : List Char)
        (acc : List (List Char)), 0x80 ≤ c.toNat →
      DnsTest.txtRun st (c :: rest) cur acc =
        .err "non-ASCII characters in TXT records are not supported".toList) ∧
    (∀ (st : DnsTest.TxtState) (rest cur : List Char) (acc : List (List Char)),
      DnsTest.txtRun st ('@' :: rest) cur acc =
        .err "denoting the current origin with @ in TXT records is not supported".toList) ∧
    (∀ (st : DnsTest.TxtState) (rest cur : List Char) (acc : List (List Char)),
      DnsTest.txtRun st ('\\' :: rest) cur acc =
        .err "backslash escapes in TXT records are not supported".toList) ∧
    (∀ (rest cur : List Char) (acc : List (List Char)),
      DnsTest.txtRun .whitespace ('(' :: rest) cur acc =
        .err "multi-line TXT records are not supported".toList) ∧
    (∀ (rest cur : List Char) (acc : List (List Char)),
      DnsTest.txtRun .unquoted ('(' :: rest) cur acc =
        DnsTest.txtRun .unquoted rest (cur ++ ['(']) acc) ∧
    (∀ (rest cur : List Char) (acc : List (List Char)),
      DnsTest.txtRun .quoted ('(' :: rest) cur acc =
        DnsTest.txtRun .quoted rest (cur ++ ['(']) acc) ∧
    (∀ (input zone ttl : List Char),
      (DnsTest.txtNextColumn input).1 = some zone →
      (DnsTest.txtNextColumn (DnsTest.txtNextColumn input).2).1 = some ttl →
      (DnsTest.txtNextColumn (DnsTest.txtNextColumn
        (DnsTest.txtNextColumn input).2).2).1 = some "IN".toList →
      (DnsTest.txtNextColumn (DnsTest.txtNextColumn (DnsTest.txtNextColumn
        (DnsTest.txtNextColumn input).2).2).2).1 = some "TXT".toList →
      DnsTest.txtRun .whitespace (DnsTest.txtNextColumn (DnsTest.txtNextColumn
        (DnsTest.txtNextColumn (DnsTest.txtNextColumn input).2).2).2).2 [] [] =
        .ok [] →
      DnsTest.TXT.fromStr input = .err "expected at least 5 columns".toList) ∧
    (∀ (s cur : List Char) (acc : List (List Char)),
      DnsTest.txtStringOk s = true →
      DnsTest.txtRun .quoted s cur acc =
        .err "quoted string in TXT record was not closed".toList) := by
  refine ⟨?_, ?_, ?_, ?_, ?_, ?_, ?_, ?_⟩
  · intro st c rest cur acc h
    rw [DnsTest.txtRun.eq_def]
    dsimp only
    rw [if_pos h]
  · intro st rest cur acc
    cases st <;> rfl
  · intro st rest cur acc
    cases st <;> rfl
  · intro rest cur acc
    rfl
  · intro rest cur acc
    rfl
  · intro rest cur acc
    rfl
  · intro input zone ttl h1 h2 h3 h4 h5
    unfold DnsTest.TXT.fromStr
    dsimp only
    rw [h1, h2, h3, h4]
    dsimp only
    have hct : DnsTest.checkRecordType "TXT".toList "TXT".toList = .ok () := by decide
    have hcl : DnsTest.checkClass "IN".toList = .ok () := by decide
    rw [hct, RRes.bind_ok, hcl, RRes.bind_ok, h5, RRes.bind_ok, if_pos rfl]
  · intro s cur acc hs
    exact DnsTest.txtRun_unclosed s hs cur acc

/-- C7 counterexample to the spec's wording: a `(` inside a QUOTED TXT string
does not fail — the record parses, keeping the parenthesis. -/
theorem claim_C7_cex :
    DnsTest.TXT.fromStr "a. 1 IN TXT \"x(y\"".toList =
      RRes.ok ⟨⟨"a.".toList⟩, 1, [['x', '(', 'y']]⟩ := by
  decide

theorem claim_C7_witness :
    (0x80 ≤ '¡'.toNat ∧
      DnsTest.txtRun .quoted ['¡'] ['x'] [] =
        .err "non-ASCII characters in TXT records are not supported".toList) ∧
    ((DnsTest.txtNextColumn "a. 1 IN TXT".toList).1 = some "a.".toList ∧
      DnsTest.TXT.fromStr "a. 1 IN TXT".toList =
        .err "expected at least 5 columns".toList) ∧
    (DnsTest.txtStringOk "abc".toList = true ∧
      DnsTest.txtRun .quoted "abc".toList ['z'] [] =
        .err "quoted string in TXT record was not closed".toList) :=
  ⟨⟨by decide, claim_C7.1 .quoted '¡' [] ['x'] [] (by decide)⟩,
    ⟨by decide, claim_C7.2.2.2.2.2.2.1 "a. 1 IN TXT".toList "a.".toList "1".toList
      (by decide) (by decide) (by decide) (by decide) (by decide)⟩,
    ⟨by decide, claim_C7.2.2.2.2.2.2.2 "abc".toList ['z'] [] (by decide)⟩⟩

/-- C8: `RecordType::from_str(t.as_name()) == Ok(t)` for every record type
(for `Unknown(n)` with `n` in u16 range, as in Rust); the name of
`Unknown(n)` is `"type"` followed by the decimal of `n`; and the
`TYPE`/`type` prefix is accepted case-insensitively. -/
theorem claim_C8 :
    (∀ t : DnsTest.RecordType, t.wf = true →
      DnsTest.RecordType.fromStr t.asName = .ok t) ∧
    (∀ code : Nat,
      DnsTest.RecordType.asName (.Unknown code) = "type".toList ++ natToChars code) ∧
    DnsTest.RecordType.fromStr "TYPE1000".toList = .ok (.Unknown 1000) ∧
    DnsTest.RecordType.fromStr "type1000".toList = .ok (.Unknown 1000) :=
  ⟨fun _ h => DnsTest.RecordType.fromStr_asName h, fun _ => rfl, by decide, by decide⟩

theorem claim_C8_witness :
    DnsTest.RecordType.wf (.Unknown 1000) = true ∧
      DnsTest.RecordType.fromStr (DnsTest.RecordType.asName (.Unknown 1000)) =
        .ok (.Unknown 1000) :=
  ⟨by decide, claim_C8.1 (.Unknown 1000) (by decide)⟩

/-- C9: `DNSKEYRData::calculate_key_tag` panics (modelled as `none`) exactly
outside its precondition: invalid base64 panics; algorithm 1 with a decoded
key shorter than 3 bytes panics on the `len - 3` underflow; and under the
precondition it returns a value. -/
theorem claim_C9 :
    (∀ r : DnsTest.DNSKEYRData, base64Decode r.public_key = none →
      DnsTest.DNSKEYRData.calculateKeyTag r = none) ∧
    (∀ (r : DnsTest.DNSKEYRData) (pk : List Nat), r.algorithm = 1 →
      base64Decode r.public_key = some pk → pk.length < 3 →
      DnsTest.DNSKEYRData.calculateKeyTag r = none) ∧
    (∀ (r : DnsTest.DNSKEYRData) (pk : List Nat),
      base64Decode r.public_key = some pk → (r.algorithm = 1 → 3 ≤ pk.length) →
      (DnsTest.DNSKEYRData.calculateKeyTag r).isSome = true) := by
  refine ⟨?_, ?_, ?_⟩
  · intro r hdec
    unfold DnsTest.DNSKEYRData.calculateKeyTag
    rw [hdec]
  · intro r pk halg hdec hlen
    unfold DnsTest.DNSKEYRData.calculateKeyTag
    rw [hdec]
    dsimp only
    rw [if_pos halg, if_pos hlen]
  · intro r pk hdec hlen
    unfold DnsTest.DNSKEYRData.calculateKeyTag
    rw [hdec]
    dsimp only
    by_cases halg : r.algorithm = 1
    · rw [if_pos halg, if_neg (Nat.not_lt.mpr (hlen halg))]
      rfl
    · rw [if_neg halg]
      rfl

theorem claim_C9_witness :
    (base64Decode "!!!".toList = none ∧
      DnsTest.DNSKEYRData.calculateKeyTag ⟨256, 3, 8, "!!!".toList⟩ = none) ∧
    ((base64Decode "AA==".toList = some [0] ∧ List.length [(0 : Nat)] < 3) ∧
      DnsTest.DNSKEYRData.calculateKeyTag ⟨257, 3, 1, "AA==".toList⟩ = none) ∧
    (base64Decode "AAAA".toList = some [0, 0, 0] ∧
      (DnsTest.DNSKEYRData.calculateKeyTag ⟨256, 3, 8, "AAAA".toList⟩).isSome = true) :=
  ⟨⟨by decide, claim_C9.1 ⟨256, 3, 8, "!!!".toList⟩ (by decide)⟩,
    ⟨⟨by decide, by decide⟩,
      claim_C9.2.1 ⟨257, 3, 1, "AA==".toList⟩ [0] rfl (by decide) (by decide)⟩,
    ⟨by decide,
      claim_C9.2.2 ⟨256, 3, 8, "AAAA".toList⟩ [0, 0, 0] (by decide) (by decide)⟩⟩

/-- C10: on a validly signed message, `verify_message_byte` reaches the
unchecked `time_signed - fudge` after the MAC verifies; with
`time_signed < fudge` the subtraction underflows and (in a debug build)
panics, and with `time_signed ≥ fudge` the call is panic-free and returns
`Ok`. -/
theorem claim_C10 (S : Tsig.TSigner) (M : Tsig.Message) (t : Nat) :
    (t < S.inner.fudge →
      Tsig.TSigner.verifyMessageByte S (Tsig.TSigner.signMessage S M t) none true =
        .panicked "attempt to subtract with overflow".toList) ∧
    (S.inner.fudge ≤ t →
      Tsig.TSigner.verifyMessageByte S (Tsig.TSigner.signMessage S M t) none true =
        .ok ((Tsig.TSigner.signMessage S M t).record.data.mac, t,
          ⟨t - S.inner.fudge, t + S.inner.fudge⟩)) :=
  ⟨fun h => Tsig.verifyMessageByte_underflow S M t h,
    fun h => Tsig.verifyMessageByte_signMessage S M t h⟩

def wC10S : Tsig.TSigner := ⟨⟨[4, 5], .hmacSha512, ⟨"k10.".toList⟩, 300⟩⟩

def wC10M : Tsig.Message := ⟨2, [1, 2, 3]⟩

theorem claim_C10_witness :
    (100 < wC10S.inner.fudge ∧
      Tsig.TSigner.verifyMessageByte wC10S
          (Tsig.TSigner.signMessage wC10S wC10M 100) none true =
        .panicked "attempt to subtract with overflow".toList) ∧
    (wC10S.inner.fudge ≤ 400 ∧
      Tsig.TSigner.verifyMessageByte wC10S
          (Tsig.TSigner.signMessage wC10S wC10M 400) none true =
        .ok ((Tsig.TSigner.signMessage wC10S wC10M 400).record.data.mac, 400,
          ⟨400 - wC10S.inner.fudge, 400 + wC10S.inner.fudge⟩)) :=
  ⟨⟨by decide, (claim_C10 wC10S wC10M 100).1 (by decide)⟩,
    ⟨by decide, (claim_C10 wC10S wC10M 400).2 (by decide)⟩⟩
